import Mathlib

/-!
# Message authentication layer of the PTP port (`auth.c`)

A shallow embedding of the six operations of `auth.c`:

* `authentication_append_delayed`, `authentication_append_immediate` (TLV builder),
* `protect_message_delayed`, `protect_message` (protection engine),
* `verify_icv`, `verify_delayed_icv` (verification engine).

The C functions mutate the port `p` and the message `m` through pointers and call
collaborators declared in `auth.h` (SA store lookup, TLV reservation, MAC primitive,
Replay Guard).  Here every operation is a pure function returning an `Outcome`: the C
return value, the port and the message after the call, and the list of collaborator
calls made, in order.  The collaborators whose code is not part of `auth.c` are the
fields of `Externals`.

Memory is flat: the bytes of a message are a function from the offset relative to
`(unsigned char *) m` to the byte stored there, so that the unchecked pointer
`(unsigned char *) m + len` of the source has a meaning for every `len`; the message
itself is at offset 0.

Machine integers are natural numbers and integers with explicit wrap-around.  The
`int len` of the source is the 32-bit two's complement value of the subtraction
(`wrap_int32`); the counters `validPA` and `invalidPA` are 64-bit unsigned fields and
`++` wraps at `2 ^ 64` (`counter_succ`).
-/

namespace Auth

/-! ## Data model -/

/-- Modelled from the spec: a security association holds a key identifier, key
material, a fixed hash output length and mutable replay-sequence state, the stored
high-water sequence number.  The C declaration of `struct security_association` is in
a header that is not part of `auth.c`, which reads `sa->key_id` (taken as a 32-bit
value), `sa->key` and `sa->hash_len`; `seqnum` is the replay state. -/
structure security_association where
  key_id : Nat
  key : List Nat
  hash_len : Nat
  seqnum : Nat
deriving DecidableEq, Repr

/-- Per-port security policy: `policy->spp_immediate` and `policy->spp_delayed`. -/
structure security_policy where
  spp_immediate : Nat
  spp_delayed : Nat
deriving DecidableEq, Repr

/-- Authentication counters of a port: `p->stats.validPA`, `p->stats.invalidPA`, two
64-bit unsigned fields; they are incremented with `counter_succ`, which wraps. -/
structure port_stats where
  validPA : Nat
  invalidPA : Nat
deriving DecidableEq, Repr

/-- Modelled from the spec: the SA store maps a security-association identifier to the
SA configured for it, or to nothing.  It is what `clock_get_sad(p->clock)` returns;
its C declaration is not part of `auth.c`. -/
abbrev Sad := Nat → Option security_association

/-- The part of `struct port` that `auth.c` touches: the SA database of the port's
clock and the statistics. -/
structure port where
  sad : Sad
  stats : port_stats

/-- Flat byte memory addressed relative to `(unsigned char *) m`. -/
abbrev Mem := Int → Nat

/-- The part of `struct ptp_message` that `auth.c` touches: the bytes of the message
object and the list of attached TLV descriptors (offset and size of each). -/
structure ptp_message where
  mem : Mem
  tlv_list : List (Int × Nat)

/-- Collaborator calls and diagnostics of `auth.c`, in the order they are made. -/
inductive Event where
  | query_security_association (spp : Nat)
  | msg_tlv_append (length : Nat)
  | append_icv (sa : security_association) (icv data len : Int)
  | check_icv (sa : security_association) (icv data len : Int)
  | check_seqnum (sa : security_association)
  | pr_err_wrong_icv (spp : Nat)
  | pr_info_icv_verified
  | pr_err_seqnum
deriving DecidableEq, Repr

/-- What a call leaves behind: the C return value, the port and the message after the
call, and the collaborator calls made. -/
structure Outcome where
  ret : Int
  p : port
  m : ptp_message
  trace : List Event

/-- Constants, layout facts and collaborators that `auth.c` uses and that are declared
outside it (`auth.h` and the headers it includes).

* `host_big_endian`: byte order of the host, which decides how a 16-bit or 32-bit
  structure field lies in memory and what `ntohs` does;
* `SPP_NO_SECURITY`, `TLV_AUTHENTICATION`, `PRESENT`, `NOT_PRESENT`,
  `SEC_PARAM_INDICATOR`: the constants and the flag-packing operation of the header;
* `messageLength_off`: offset of `header.messageLength` in the message;
* `msg_tlv_append m n`: reserves `n` bytes of TLV space, giving the message after the
  reservation and the offset of the reserved region, or nothing when it fails;
* `append_icv sa mem icv data len`: the memory after the MAC primitive has written
  the ICV at offset `icv` for the span of `len` bytes at offset `data`;
* `check_icv sa mem icv data len`: nonzero when the ICV at `icv` is invalid;
* `check_seqnum sa m p`: nonzero when the sequence number is invalid, together with
  the SA after the Replay Guard has updated its replay state. -/
structure Externals where
  host_big_endian : Bool
  SPP_NO_SECURITY : Nat
  TLV_AUTHENTICATION : Nat
  PRESENT : Nat
  NOT_PRESENT : Nat
  SEC_PARAM_INDICATOR : Nat → Nat → Nat → Nat
  messageLength_off : Int
  msg_tlv_append : ptp_message → Nat → Option (ptp_message × Int)
  append_icv : security_association → Mem → Int → Int → Int → Mem
  check_icv : security_association → Mem → Int → Int → Int → Int
  check_seqnum : security_association → ptp_message → port → Int × security_association

/-! ## Machine integers -/

/-- The value a C `int` holds for the mathematical result `x` of an arithmetic
expression: `x` reduced to the 32-bit two's complement range. -/
def wrap_int32 (x : Int) : Int :=
  (x + 2147483648) % 4294967296 - 2147483648

/-- The increment `++` of a 64-bit unsigned counter: it wraps to 0 at the maximum. -/
def counter_succ (x : Nat) : Nat :=
  (x + 1) % 18446744073709551616

/-! ## Memory access -/

/-- Store of one byte. -/
def store_u8 (mem : Mem) (a : Int) (v : Nat) : Mem :=
  Function.update mem a (v % 256)

/-- Store of a 16-bit field in host byte order. -/
def store_u16 (be : Bool) (mem : Mem) (a : Int) (v : Nat) : Mem :=
  if be then store_u8 (store_u8 mem a (v / 256)) (a + 1) v
  else store_u8 (store_u8 mem a v) (a + 1) (v / 256)

/-- Store of a 32-bit field in host byte order. -/
def store_u32 (be : Bool) (mem : Mem) (a : Int) (v : Nat) : Mem :=
  if be then
    store_u8 (store_u8 (store_u8 (store_u8 mem a (v / 16777216)) (a + 1) (v / 65536))
      (a + 2) (v / 256)) (a + 3) v
  else
    store_u8 (store_u8 (store_u8 (store_u8 mem a v) (a + 1) (v / 256))
      (a + 2) (v / 65536)) (a + 3) (v / 16777216)

/-- Copy of `n` bytes of `src` to offset `a` (`memcpy`); a source shorter than `n` is
read as zero past its end. -/
def memcpy (mem : Mem) (a : Int) (src : List Nat) (n : Nat) : Mem :=
  fun i => if a ≤ i ∧ i < a + n then src.getD (i - a).toNat 0 % 256 else mem i

/-- Load of a 16-bit field in host byte order. -/
def load_u16 (be : Bool) (mem : Mem) (a : Int) : Nat :=
  if be then (mem a % 256) * 256 + mem (a + 1) % 256
  else (mem (a + 1) % 256) * 256 + mem a % 256

/-- Conversion of a 16-bit value from network to host order, `ntohs`. -/
def ntohs (be : Bool) (v : Nat) : Nat :=
  if be then v % 65536 else (v % 256) * 256 + (v / 256) % 256

/-- Modelled from the spec: `resolve_security_association(profile_id, store)` returns
the currently active SA for a profile id, or absence.  The code of
`query_security_association` is not part of `auth.c`. -/
def query_security_association (spp : Nat) (sad : Sad) : Option security_association :=
  sad spp

/-- Modelled from the spec: the wire layout of the immediate Authentication TLV is type
2 bytes, length 2 bytes, SPP 1 byte, secParamIndicator 1 byte, keyId 4 bytes, then the
ICV.  This is `sizeof(*auth)` for `struct authentication_tlv_immediate`, which is
declared in a header that is not part of `auth.c`. -/
def sizeof_authentication_tlv_immediate : Nat := 10

/-- Modelled from the spec: the wire layout of the delayed Authentication TLV is that of
the immediate one with a 32-byte disclosedKey between keyId and the ICV.  This is
`sizeof(*auth)` for `struct authentication_tlv_delayed`, which is declared in a header
that is not part of `auth.c`. -/
def sizeof_authentication_tlv_delayed : Nat := 42

/-- The expression `ntohs(m->header.messageLength)`. -/
def declared_length (E : Externals) (m : ptp_message) : Nat :=
  ntohs E.host_big_endian (load_u16 E.host_big_endian m.mem E.messageLength_off)

/-! ## TLV builder -/

/-- Embedding of `authentication_append_delayed`. -/
def authentication_append_delayed (E : Externals) (p : port) (m : ptp_message)
    (policy : Option security_policy) : Outcome :=
  match policy with
  | none => ⟨-1, p, m, []⟩
  | some pol =>
    if pol.spp_delayed = E.SPP_NO_SECURITY then ⟨0, p, m, []⟩
    else
      match query_security_association pol.spp_delayed p.sad with
      | none => ⟨-1, p, m, [Event.query_security_association pol.spp_delayed]⟩
      | some sa =>
        match E.msg_tlv_append m (sizeof_authentication_tlv_delayed + sa.hash_len) with
        | none =>
          ⟨-1, p, m, [Event.query_security_association pol.spp_delayed,
            Event.msg_tlv_append (sizeof_authentication_tlv_delayed + sa.hash_len)]⟩
        | some (m1, auth) =>
          let mem1 := store_u16 E.host_big_endian m1.mem auth E.TLV_AUTHENTICATION
          let mem2 := store_u16 E.host_big_endian mem1 (auth + 2)
            ((sizeof_authentication_tlv_delayed - 2 - 2) + sa.hash_len)
          let mem3 := store_u8 mem2 (auth + 4) pol.spp_delayed
          let mem4 := store_u8 mem3 (auth + 5)
            (E.SEC_PARAM_INDICATOR E.PRESENT E.PRESENT E.PRESENT)
          let mem5 := store_u32 E.host_big_endian mem4 (auth + 6) sa.key_id
          let mem6 := memcpy mem5 (auth + 10) sa.key 32
          ⟨0, p, { m1 with mem := mem6 },
            [Event.query_security_association pol.spp_delayed,
             Event.msg_tlv_append (sizeof_authentication_tlv_delayed + sa.hash_len)]⟩

/-- Embedding of `authentication_append_immediate`. -/
def authentication_append_immediate (E : Externals) (p : port) (m : ptp_message)
    (policy : Option security_policy) : Outcome :=
  match policy with
  | none => ⟨-1, p, m, []⟩
  | some pol =>
    if pol.spp_immediate = E.SPP_NO_SECURITY then ⟨0, p, m, []⟩
    else
      match query_security_association pol.spp_immediate p.sad with
      | none => ⟨-1, p, m, [Event.query_security_association pol.spp_immediate]⟩
      | some sa =>
        match E.msg_tlv_append m (sizeof_authentication_tlv_immediate + sa.hash_len) with
        | none =>
          ⟨-1, p, m, [Event.query_security_association pol.spp_immediate,
            Event.msg_tlv_append (sizeof_authentication_tlv_immediate + sa.hash_len)]⟩
        | some (m1, auth) =>
          let mem1 := store_u16 E.host_big_endian m1.mem auth E.TLV_AUTHENTICATION
          let mem2 := store_u16 E.host_big_endian mem1 (auth + 2)
            ((sizeof_authentication_tlv_immediate - 2 - 2) + sa.hash_len)
          let mem3 := store_u8 mem2 (auth + 4) pol.spp_immediate
          let mem4 := store_u8 mem3 (auth + 5)
            (E.SEC_PARAM_INDICATOR E.NOT_PRESENT E.NOT_PRESENT E.NOT_PRESENT)
          let mem5 := store_u32 E.host_big_endian mem4 (auth + 6) sa.key_id
          ⟨0, p, { m1 with mem := mem5 },
            [Event.query_security_association pol.spp_immediate,
             Event.msg_tlv_append (sizeof_authentication_tlv_immediate + sa.hash_len)]⟩

/-! ## Protection engine

`protect_message*` and `verify*_icv` read `policy->...` without testing the pointer:
with a null policy the C code dereferences a null pointer, and the embedding gives
`none`.  Their `int len` is the subtraction of the source reduced to the range of a
32-bit `int`, and `(unsigned char *) m + len` is the offset `len`. -/

/-- Embedding of `protect_message_delayed`. -/
def protect_message_delayed (E : Externals) (p : port) (m : ptp_message)
    (policy : Option security_policy) : Option Outcome :=
  match policy with
  | none => none
  | some pol =>
    if pol.spp_delayed = E.SPP_NO_SECURITY then some ⟨0, p, m, []⟩
    else
      match query_security_association pol.spp_delayed p.sad with
      | none => some ⟨-1, p, m, [Event.query_security_association pol.spp_delayed]⟩
      | some sa =>
        let len : Int := wrap_int32 ((declared_length E m : Int) - (sa.hash_len : Int) - 42)
        some ⟨0, p, { m with mem := E.append_icv sa m.mem len 0 len },
          [Event.query_security_association pol.spp_delayed,
           Event.append_icv sa len 0 len]⟩

/-- Embedding of `protect_message`. -/
def protect_message (E : Externals) (p : port) (m : ptp_message)
    (policy : Option security_policy) : Option Outcome :=
  match policy with
  | none => none
  | some pol =>
    if pol.spp_immediate = E.SPP_NO_SECURITY then some ⟨0, p, m, []⟩
    else
      match query_security_association pol.spp_immediate p.sad with
      | none => some ⟨-1, p, m, [Event.query_security_association pol.spp_immediate]⟩
      | some sa =>
        let len : Int := wrap_int32 ((declared_length E m : Int) - (sa.hash_len : Int))
        some ⟨0, p, { m with mem := E.append_icv sa m.mem len 0 len },
          [Event.query_security_association pol.spp_immediate,
           Event.append_icv sa len 0 len]⟩

/-! ## Verification engine -/

/-- Embedding of `verify_icv`. -/
def verify_icv (E : Externals) (p : port) (m : ptp_message)
    (policy : Option security_policy) : Option Outcome :=
  match policy with
  | none => none
  | some pol =>
    if pol.spp_immediate = E.SPP_NO_SECURITY then some ⟨0, p, m, []⟩
    else
      match query_security_association pol.spp_immediate p.sad with
      | none => some ⟨-1, p, m, [Event.query_security_association pol.spp_immediate]⟩
      | some sa =>
        let len : Int := wrap_int32 ((declared_length E m : Int) - (sa.hash_len : Int))
        let icv_invalid := E.check_icv sa m.mem len 0 len
        if icv_invalid ≠ 0 then
          some ⟨-1, { p with stats := { p.stats with invalidPA := counter_succ p.stats.invalidPA } }, m,
            [Event.query_security_association pol.spp_immediate,
             Event.check_icv sa len 0 len,
             Event.pr_err_wrong_icv pol.spp_immediate]⟩
        else
          let r := E.check_seqnum sa m p
          let seq_invalid := r.1
          let p1 : port :=
            { p with sad := Function.update p.sad pol.spp_immediate (some r.2) }
          if seq_invalid ≠ 0 then
            some ⟨-1,
              { p1 with stats := { p1.stats with invalidPA := counter_succ p1.stats.invalidPA } }, m,
              [Event.query_security_association pol.spp_immediate,
               Event.check_icv sa len 0 len,
               Event.pr_info_icv_verified,
               Event.check_seqnum sa,
               Event.pr_err_seqnum]⟩
          else
            some ⟨0,
              { p1 with stats := { p1.stats with validPA := counter_succ p1.stats.validPA } }, m,
              [Event.query_security_association pol.spp_immediate,
               Event.check_icv sa len 0 len,
               Event.pr_info_icv_verified,
               Event.check_seqnum sa]⟩

/-- Embedding of `verify_delayed_icv`. -/
def verify_delayed_icv (E : Externals) (p : port) (m : ptp_message)
    (policy : Option security_policy) : Option Outcome :=
  match policy with
  | none => none
  | some pol =>
    if pol.spp_delayed = E.SPP_NO_SECURITY then some ⟨0, p, m, []⟩
    else
      match query_security_association pol.spp_delayed p.sad with
      | none => some ⟨-1, p, m, [Event.query_security_association pol.spp_delayed]⟩
      | some sa =>
        let len : Int := wrap_int32 ((declared_length E m : Int) - (sa.hash_len : Int) - 42)
        let icv_invalid := E.check_icv sa m.mem len 0 len
        if icv_invalid ≠ 0 then
          some ⟨-1, { p with stats := { p.stats with invalidPA := counter_succ p.stats.invalidPA } }, m,
            [Event.query_security_association pol.spp_delayed,
             Event.check_icv sa len 0 len,
             Event.pr_err_wrong_icv pol.spp_delayed]⟩
        else
          let r := E.check_seqnum sa m p
          let seq_invalid := r.1
          let p1 : port :=
            { p with sad := Function.update p.sad pol.spp_delayed (some r.2) }
          if seq_invalid ≠ 0 then
            some ⟨-1,
              { p1 with stats := { p1.stats with invalidPA := counter_succ p1.stats.invalidPA } }, m,
              [Event.query_security_association pol.spp_delayed,
               Event.check_icv sa len 0 len,
               Event.pr_info_icv_verified,
               Event.check_seqnum sa,
               Event.pr_err_seqnum]⟩
          else
            some ⟨0,
              { p1 with stats := { p1.stats with validPA := counter_succ p1.stats.validPA } }, m,
              [Event.query_security_association pol.spp_delayed,
               Event.check_icv sa len 0 len,
               Event.pr_info_icv_verified,
               Event.check_seqnum sa]⟩

/-! ## The two modes

The source has one function per mode and operation.  `Mode` and the three
dispatchers below only select one of them, so that a property of both modes is one
statement. -/

/-- The two protection modes of the source. -/
inductive Mode where
  | immediate
  | delayed
deriving DecidableEq, Repr

/-- The policy selector an operation of the mode reads: `policy->spp_immediate` or
`policy->spp_delayed`. -/
def selector (md : Mode) (pol : security_policy) : Nat :=
  match md with
  | Mode.immediate => pol.spp_immediate
  | Mode.delayed => pol.spp_delayed

/-- The append operation of the mode. -/
def append_op (md : Mode) (E : Externals) (p : port) (m : ptp_message)
    (policy : Option security_policy) : Outcome :=
  match md with
  | Mode.immediate => authentication_append_immediate E p m policy
  | Mode.delayed => authentication_append_delayed E p m policy

/-- The protect operation of the mode. -/
def protect_op (md : Mode) (E : Externals) (p : port) (m : ptp_message)
    (policy : Option security_policy) : Option Outcome :=
  match md with
  | Mode.immediate => protect_message E p m policy
  | Mode.delayed => protect_message_delayed E p m policy

/-- The verify operation of the mode. -/
def verify_op (md : Mode) (E : Externals) (p : port) (m : ptp_message)
    (policy : Option security_policy) : Option Outcome :=
  match md with
  | Mode.immediate => verify_icv E p m policy
  | Mode.delayed => verify_delayed_icv E p m policy

/-! ## Quantities of the specification -/

/-- Big-endian value of the two bytes of the header field `messageLength`. -/
def messageLength_be (E : Externals) (m : ptp_message) : Nat :=
  (m.mem E.messageLength_off % 256) * 256 + m.mem (E.messageLength_off + 1) % 256

/-- Layout offset of the mode as the specification gives it: none in immediate mode,
42 in delayed mode. -/
def layout_offset (md : Mode) : Int :=
  match md with
  | Mode.immediate => 0
  | Mode.delayed => 42

/-- Length of the hashed span, the `int len` of the source: the declared length minus
the hash length of the SA, minus the layout offset of the mode, as a C `int`. -/
def span_len (md : Mode) (E : Externals) (m : ptp_message) (sa : security_association) :
    Int :=
  wrap_int32 ((messageLength_be E m : Int) - (sa.hash_len : Int) - layout_offset md)

/-- The arguments `(icv, data, len)` of the calls of the MAC primitive in a trace. -/
def mac_calls : List Event → List (Int × Int × Int)
  | [] => []
  | Event.append_icv _ icv data len :: es => (icv, data, len) :: mac_calls es
  | Event.check_icv _ icv data len :: es => (icv, data, len) :: mac_calls es
  | _ :: es => mac_calls es

/-- Modelled from the spec: the MAC primitive writes `sa.hash_len` bytes of ICV into
the region it is handed, so a call of `append_icv` with ICV offset `icv` writes
`[icv, icv + sa.hash_len)`.  These are the byte ranges `(start, end)`, end excluded,
that the calls of `append_icv` in a trace write. -/
def icv_regions : List Event → List (Int × Int)
  | [] => []
  | Event.append_icv sa icv _ _ :: es => (icv, icv + (sa.hash_len : Int)) :: icv_regions es
  | _ :: es => icv_regions es

/-- Whether the event is a call of the Replay Guard. -/
def is_check_seqnum : Event → Bool
  | Event.check_seqnum _ => true
  | _ => false

/-- Whether the event is a call of the MAC primitive. -/
def is_mac_call : Event → Bool
  | Event.append_icv _ _ _ _ => true
  | Event.check_icv _ _ _ _ => true
  | _ => false

/-- Whether the event is a reservation of TLV space. -/
def is_msg_tlv_append : Event → Bool
  | Event.msg_tlv_append _ => true
  | _ => false

/-- Whether the event is a lookup in the SA store. -/
def is_query : Event → Bool
  | Event.query_security_association _ => true
  | _ => false

/-- The bytes of the span of `len` bytes at offset `data`. -/
def hashed_span (mem : Mem) (data len : Int) : List Nat :=
  (List.range len.toNat).map (fun k : Nat => mem (data + (k : Int)) % 256)

/-- The memory with bit `b` of the byte at offset `j` flipped. -/
def flip_bit (mem : Mem) (j : Int) (b : Nat) : Mem :=
  Function.update mem j (Nat.xor (mem j % 256) (2 ^ b))

/-- Byte `k` of the ICV that a MAC function `mac` gives for an SA and a span. -/
def icv_byte (mac : security_association → List Nat → List Nat)
    (sa : security_association) (span : List Nat) (k : Nat) : Nat :=
  (mac sa span).getD k 0 % 256

/-- The `sa.hash_len` bytes of the ICV that `mac` gives for an SA and a span. -/
def icv_bytes (mac : security_association → List Nat → List Nat)
    (sa : security_association) (span : List Nat) : List Nat :=
  (List.range sa.hash_len).map (icv_byte mac sa span)

/-- Modelled from the spec: `mac_compute(sa, icv_out_region, hashed_span)` writes
`sa.hash_len` bytes of ICV covering the hashed span into the ICV region.  The code of
`append_icv` is not part of `auth.c`; this is its contract for a MAC function `mac`. -/
def append_icv_contract (E : Externals)
    (mac : security_association → List Nat → List Nat) : Prop :=
  ∀ (sa : security_association) (mem : Mem) (icv data len i : Int),
    E.append_icv sa mem icv data len i =
      if icv ≤ i ∧ i < icv + (sa.hash_len : Int) then
        icv_byte mac sa (hashed_span mem data len) (i - icv).toNat
      else mem i

/-- Modelled from the spec: `mac_check(sa, icv_region, hashed_span)` recomputes and
compares, and returns whether the ICV is invalid.  The code of `check_icv` is not part
of `auth.c`; this is its contract for a MAC function `mac`: the result is zero exactly
when the `sa.hash_len` bytes at the ICV offset are those `mac` gives for the span. -/
def check_icv_contract (E : Externals)
    (mac : security_association → List Nat → List Nat) : Prop :=
  ∀ (sa : security_association) (mem : Mem) (icv data len : Int),
    E.check_icv sa mem icv data len = 0 ↔
      ∀ k : Nat, k < sa.hash_len →
        mem (icv + (k : Int)) % 256 = icv_byte mac sa (hashed_span mem data len) k

/-- Modelled from the spec: `replay_check(sa, message, port)` returns whether the
sequence number of the message fails to advance, and records the high-water sequence
on success.  The code of `check_seqnum` is not part of `auth.c`; this is its contract
for a function `seq` giving the sequence number of a message: a sequence number not
above the stored one is reported invalid, and a call that reports a valid sequence
number stores it in the SA and changes nothing else of the SA. -/
def check_seqnum_contract (E : Externals) (seq : ptp_message → Nat) : Prop :=
  ∀ (sa : security_association) (m : ptp_message) (p : port),
    (seq m ≤ sa.seqnum → (E.check_seqnum sa m p).1 ≠ 0) ∧
    ((E.check_seqnum sa m p).1 = 0 → (E.check_seqnum sa m p).2 = { sa with seqnum := seq m })

/-! ## A reference instance of the collaborators

An executable instance of `Externals` that meets the three contracts above, used to
evaluate the operations on concrete messages. -/

/-- A checksum standing for the MAC function: every ICV byte is the sum of the span and
key bytes. -/
def mac0 (sa : security_association) (span : List Nat) : List Nat :=
  List.replicate sa.hash_len ((span.sum + sa.key.sum) % 256)

/-- Reference `append_icv`: writes the ICV bytes of `mac` at the ICV offset. -/
def ref_append_icv (mac : security_association → List Nat → List Nat)
    (sa : security_association) (mem : Mem) (icv data len : Int) : Mem :=
  fun i =>
    if icv ≤ i ∧ i < icv + (sa.hash_len : Int) then
      icv_byte mac sa (hashed_span mem data len) (i - icv).toNat
    else mem i

/-- Reference `check_icv`: 0 when the bytes at the ICV offset are the ICV bytes of
`mac`, 1 otherwise. -/
def ref_check_icv (mac : security_association → List Nat → List Nat)
    (sa : security_association) (mem : Mem) (icv data len : Int) : Int :=
  if ∀ k : Nat, k < sa.hash_len →
      mem (icv + (k : Int)) % 256 = icv_byte mac sa (hashed_span mem data len) k
  then 0 else 1

/-- Sequence number of a message: big-endian value of the bytes at offsets 30 and 31,
the place of `sequenceId` in the PTP header. -/
def seq0 (m : ptp_message) : Nat :=
  (m.mem 30 % 256) * 256 + m.mem 31 % 256

/-- Reference `check_seqnum`: accepts a sequence number above the stored one and
stores it. -/
def ref_check_seqnum (sa : security_association) (m : ptp_message) (_p : port) :
    Int × security_association :=
  if seq0 m ≤ sa.seqnum then (1, sa) else (0, { sa with seqnum := seq0 m })

/-- Reference `msg_tlv_append`: reserves the region at the end of the message and
raises the `messageLength` field, kept in network byte order, by the reserved size;
fails when the message would exceed 1500 bytes. -/
def ref_msg_tlv_append (m : ptp_message) (n : Nat) : Option (ptp_message × Int) :=
  let l := (m.mem 2 % 256) * 256 + m.mem 3 % 256
  if 1500 < l + n then none
  else
    some ({ mem := Function.update (Function.update m.mem 2 ((l + n) / 256 % 256)) 3
              ((l + n) % 256),
            tlv_list := m.tlv_list ++ [((l : Int), n)] }, (l : Int))

/-- The reference instance: a little-endian host, the reference collaborators with
the checksum `mac0`. -/
def E0 : Externals where
  host_big_endian := false
  SPP_NO_SECURITY := 255
  TLV_AUTHENTICATION := 32777
  PRESENT := 1
  NOT_PRESENT := 0
  SEC_PARAM_INDICATOR := fun a b c => a + 2 * b + 4 * c
  messageLength_off := 2
  msg_tlv_append := ref_msg_tlv_append
  append_icv := ref_append_icv mac0
  check_icv := ref_check_icv mac0
  check_seqnum := ref_check_seqnum

/-- An SA with a 2-byte ICV and no sequence number seen yet. -/
def sa0 : security_association :=
  { key_id := 9, key := [1, 2, 3], hash_len := 2, seqnum := 0 }

/-- A store with `sa0` under the profile ids 1 and 2. -/
def sad0 : Sad := fun spp => if spp = 1 ∨ spp = 2 then some sa0 else none

/-- A port over `sad0` with both counters at zero. -/
def p0 : port := { sad := sad0, stats := { validPA := 0, invalidPA := 0 } }

/-- A policy that secures both modes: profile 1 immediate, profile 2 delayed. -/
def pol0 : security_policy := { spp_immediate := 1, spp_delayed := 2 }

/-- A policy with the no-security selector in both modes. -/
def pol_none : security_policy := { spp_immediate := 255, spp_delayed := 255 }

/-- A policy whose profile ids (7 and 8) are not in `sad0`. -/
def pol_missing : security_policy := { spp_immediate := 7, spp_delayed := 8 }

/-- A message of declared length 50 and sequence number 7, all other bytes zero. -/
def m0 : ptp_message :=
  { mem := fun i => if i = 3 then 50 else if i = 31 then 7 else 0, tlv_list := [] }

/-- The message `m0` after `protect_message`: the two ICV bytes at offsets 48 and 49
hold the checksum 63. -/
def m0_protected : ptp_message :=
  { mem := fun i => if i = 3 then 50 else if i = 31 then 7
      else if i = 48 ∨ i = 49 then 63 else 0,
    tlv_list := [] }

/-- A message of declared length 5 whose two-byte ICV region `[3, 5)`, for `sa0`,
contains the low byte of the `messageLength` field; sequence number 7. -/
def m_short : ptp_message :=
  { mem := fun i => if i = 0 then 4 else if i = 3 then 5 else if i = 31 then 7 else 0,
    tlv_list := [] }

/-- A message of declared length 50 that carries, at offsets 16 and 17, the ICV that
`sa0` gives for the first 16 bytes of the same message with declared length 18;
sequence number 7. -/
def m_crafted : ptp_message :=
  { mem := fun i => if i = 3 then 50 else if i = 16 ∨ i = 17 then 24
      else if i = 31 then 7 else 0,
    tlv_list := [] }

/-! ## Reading the Authentication TLV back -/

/-- Load of one byte. -/
def load_u8 (mem : Mem) (a : Int) : Nat :=
  mem a % 256

/-- Load of a 32-bit field in host byte order. -/
def load_u32 (be : Bool) (mem : Mem) (a : Int) : Nat :=
  if be then
    (((mem a % 256) * 256 + mem (a + 1) % 256) * 256 + mem (a + 2) % 256) * 256
      + mem (a + 3) % 256
  else
    (((mem (a + 3) % 256) * 256 + mem (a + 2) % 256) * 256 + mem (a + 1) % 256) * 256
      + mem a % 256

/-- Size of the fixed part of the Authentication TLV of a mode as the specification
gives it: 10 bytes in immediate mode, 42 bytes (10 and the 32-byte disclosedKey) in
delayed mode. -/
def tlv_header_size (md : Mode) : Nat :=
  match md with
  | Mode.immediate => 10
  | Mode.delayed => 42

/-- The value of the three flags of secParamIndicator in a mode as the specification
gives it: `NOT_PRESENT` in immediate mode, `PRESENT` in delayed mode. -/
def indicator_flag (md : Mode) (E : Externals) : Nat :=
  match md with
  | Mode.immediate => E.NOT_PRESENT
  | Mode.delayed => E.PRESENT

/-- The message `m0` after the reference `msg_tlv_append` has reserved 44 bytes at
offset 50: the declared length is 94. -/
def m0_reserved : ptp_message :=
  { mem := Function.update (Function.update m0.mem 2 0) 3 94, tlv_list := [(50, 44)] }

/-- The length field of an Authentication TLV that lies at offset `tlv` of a message
in network byte order, read the way the source reads `messageLength`. -/
def tlv_length_field (E : Externals) (m : ptp_message) (tlv : Int) : Nat :=
  ntohs E.host_big_endian (load_u16 E.host_big_endian m.mem (tlv + 2))

/-- The type field of an Authentication TLV that lies at offset `tlv` of a message in
network byte order. -/
def tlv_type_field (E : Externals) (m : ptp_message) (tlv : Int) : Nat :=
  ntohs E.host_big_endian (load_u16 E.host_big_endian m.mem tlv)

/-- A received message of declared length 62, sequence number 7, whose immediate
Authentication TLV at offset 50 has the length field 9 where `sa0` calls for
`6 + 2 = 8`, and whose ICV bytes at offsets 60 and 61 are the checksum 231 of the 60
bytes before them. -/
def m_badlen : ptp_message :=
  { mem := fun i =>
      if i = 3 then 62 else if i = 31 then 7
      else if i = 50 then 128 else if i = 51 then 9
      else if i = 53 then 9 else if i = 54 then 1 else if i = 59 then 9
      else if i = 60 ∨ i = 61 then 231 else 0,
    tlv_list := [] }

/-- The message `m0` after `authentication_append_delayed` for `sa0`, with a declared
length of 136: the 94 bytes up to the end of the reserved TLV and 42 bytes after
it. -/
def m0_delayed_trailing : ptp_message :=
  { (authentication_append_delayed E0 p0 m0 (some pol0)).m with
    mem := (Function.update (authentication_append_delayed E0 p0 m0 (some pol0)).m.mem
      3 136) }

/-! ## Basic facts -/

/-- The source's `ntohs(m->header.messageLength)` is the big-endian value of the two
bytes of the field, whatever the byte order of the host. -/
theorem declared_length_eq (E : Externals) (m : ptp_message) :
    declared_length E m = messageLength_be E m := by
  unfold declared_length messageLength_be ntohs load_u16
  cases E.host_big_endian <;> simp <;> omega

/-- The declared length is a 16-bit value. -/
theorem messageLength_be_lt (E : Externals) (m : ptp_message) :
    messageLength_be E m < 65536 := by
  unfold messageLength_be
  omega

/-- A value inside the range of `int` is the value the `int` holds. -/
theorem wrap_int32_of_range (x : Int) (h0 : -2147483648 ≤ x) (h1 : x < 2147483648) :
    wrap_int32 x = x := by
  unfold wrap_int32
  omega

/-- The value of an `int` is inside the range of `int`. -/
theorem wrap_int32_range (x : Int) :
    -2147483648 ≤ wrap_int32 x ∧ wrap_int32 x < 2147483648 := by
  unfold wrap_int32
  omega

/-- A counter below its maximum is incremented by one. -/
theorem counter_succ_of_lt (x : Nat) (h : x + 1 < 18446744073709551616) :
    counter_succ x = x + 1 := by
  unfold counter_succ
  omega

/-- The layout offset of a mode is 0 or 42. -/
theorem layout_offset_range (md : Mode) : 0 ≤ layout_offset md ∧ layout_offset md ≤ 42 := by
  cases md <;> simp [layout_offset]

/-- The span length is the mathematical difference when the subtraction stays inside
the range of `int`, as it does for every hash length up to `2 ^ 31` minus the layout
offset of the mode. -/
theorem span_len_of_range (md : Mode) (E : Externals) (m : ptp_message)
    (sa : security_association)
    (hH : (sa.hash_len : Int) + layout_offset md ≤ 2147483648) :
    span_len md E m sa =
      (messageLength_be E m : Int) - (sa.hash_len : Int) - layout_offset md := by
  have hlt := messageLength_be_lt E m
  have hoff := layout_offset_range md
  unfold span_len
  apply wrap_int32_of_range <;> omega

/-! ## The operations past the SA lookup, for both modes -/

/-- The span length of the specification is the one the source computes. -/
theorem span_len_eq (md : Mode) (E : Externals) (m : ptp_message)
    (sa : security_association) :
    span_len md E m sa = match md with
      | Mode.immediate => wrap_int32 ((declared_length E m : Int) - (sa.hash_len : Int))
      | Mode.delayed =>
        wrap_int32 ((declared_length E m : Int) - (sa.hash_len : Int) - 42) := by
  cases md <;> simp [span_len, layout_offset, declared_length_eq]

/-- Outcome of a protect operation once the SA is resolved. -/
theorem protect_op_resolved (E : Externals) (md : Mode) (p : port) (m : ptp_message)
    (pol : security_policy) (sa : security_association)
    (hsel : selector md pol ≠ E.SPP_NO_SECURITY)
    (hsa : query_security_association (selector md pol) p.sad = some sa) :
    protect_op md E p m (some pol) =
      some ⟨0, p,
        { m with mem := (E.append_icv sa m.mem (span_len md E m sa) 0 (span_len md E m sa)) },
        [Event.query_security_association (selector md pol),
         Event.append_icv sa (span_len md E m sa) 0 (span_len md E m sa)]⟩ := by
  cases md <;>
    simp only [selector] at hsel hsa <;>
    simp [protect_op, protect_message, protect_message_delayed, span_len_eq, selector,
      hsel, hsa]

/-- Outcome of a verify operation whose ICV check reports invalid. -/
theorem verify_op_icv_invalid (E : Externals) (md : Mode) (p : port) (m : ptp_message)
    (pol : security_policy) (sa : security_association)
    (hsel : selector md pol ≠ E.SPP_NO_SECURITY)
    (hsa : query_security_association (selector md pol) p.sad = some sa)
    (hicv : E.check_icv sa m.mem (span_len md E m sa) 0 (span_len md E m sa) ≠ 0) :
    verify_op md E p m (some pol) =
      some ⟨-1, { p with stats := { p.stats with invalidPA := counter_succ p.stats.invalidPA } }, m,
        [Event.query_security_association (selector md pol),
         Event.check_icv sa (span_len md E m sa) 0 (span_len md E m sa),
         Event.pr_err_wrong_icv (selector md pol)]⟩ := by
  cases md <;>
    simp only [selector] at hsel hsa <;>
    simp only [span_len_eq] at hicv <;>
    simp [verify_op, verify_icv, verify_delayed_icv, span_len_eq, selector, hsel, hsa, hicv]

/-- Outcome of a verify operation whose ICV check reports valid and whose sequence
check reports invalid. -/
theorem verify_op_seqnum_invalid (E : Externals) (md : Mode) (p : port) (m : ptp_message)
    (pol : security_policy) (sa : security_association)
    (hsel : selector md pol ≠ E.SPP_NO_SECURITY)
    (hsa : query_security_association (selector md pol) p.sad = some sa)
    (hicv : E.check_icv sa m.mem (span_len md E m sa) 0 (span_len md E m sa) = 0)
    (hseq : (E.check_seqnum sa m p).1 ≠ 0) :
    verify_op md E p m (some pol) =
      some ⟨-1,
        { sad := Function.update p.sad (selector md pol) (some (E.check_seqnum sa m p).2),
          stats := { p.stats with invalidPA := counter_succ p.stats.invalidPA } }, m,
        [Event.query_security_association (selector md pol),
         Event.check_icv sa (span_len md E m sa) 0 (span_len md E m sa),
         Event.pr_info_icv_verified,
         Event.check_seqnum sa,
         Event.pr_err_seqnum]⟩ := by
  cases md <;>
    simp only [selector] at hsel hsa <;>
    simp only [span_len_eq] at hicv <;>
    simp [verify_op, verify_icv, verify_delayed_icv, span_len_eq, selector, hsel, hsa, hicv,
      hseq]

/-- Outcome of a verify operation whose two checks report valid. -/
theorem verify_op_accept (E : Externals) (md : Mode) (p : port) (m : ptp_message)
    (pol : security_policy) (sa : security_association)
    (hsel : selector md pol ≠ E.SPP_NO_SECURITY)
    (hsa : query_security_association (selector md pol) p.sad = some sa)
    (hicv : E.check_icv sa m.mem (span_len md E m sa) 0 (span_len md E m sa) = 0)
    (hseq : (E.check_seqnum sa m p).1 = 0) :
    verify_op md E p m (some pol) =
      some ⟨0,
        { sad := Function.update p.sad (selector md pol) (some (E.check_seqnum sa m p).2),
          stats := { p.stats with validPA := counter_succ p.stats.validPA } }, m,
        [Event.query_security_association (selector md pol),
         Event.check_icv sa (span_len md E m sa) 0 (span_len md E m sa),
         Event.pr_info_icv_verified,
         Event.check_seqnum sa]⟩ := by
  cases md <;>
    simp only [selector] at hsel hsa <;>
    simp only [span_len_eq] at hicv <;>
    simp [verify_op, verify_icv, verify_delayed_icv, span_len_eq, selector, hsel, hsa, hicv,
      hseq]

/-- A verify operation past the SA lookup calls the MAC primitive once, with the span
length as ICV offset and as length, and leaves the message as it is. -/
theorem verify_op_resolved (E : Externals) (md : Mode) (p : port) (m : ptp_message)
    (pol : security_policy) (sa : security_association)
    (hsel : selector md pol ≠ E.SPP_NO_SECURITY)
    (hsa : query_security_association (selector md pol) p.sad = some sa) :
    ∃ o, verify_op md E p m (some pol) = some o ∧
      mac_calls o.trace = [(span_len md E m sa, 0, span_len md E m sa)] ∧
      o.m = m := by
  by_cases hi : E.check_icv sa m.mem (span_len md E m sa) 0 (span_len md E m sa) = 0
  · by_cases hs : (E.check_seqnum sa m p).1 = 0
    · exact ⟨_, verify_op_accept E md p m pol sa hsel hsa hi hs, rfl, rfl⟩
    · exact ⟨_, verify_op_seqnum_invalid E md p m pol sa hsel hsa hi hs, rfl, rfl⟩
  · exact ⟨_, verify_op_icv_invalid E md p m pol sa hsel hsa hi, rfl, rfl⟩

/-- The span length is the mathematical difference for every hash length up to
`2 ^ 31 - 42`. -/
theorem span_len_of_bound (md : Mode) (E : Externals) (m : ptp_message)
    (sa : security_association) (hH : sa.hash_len ≤ 2147483606) :
    span_len md E m sa =
      (messageLength_be E m : Int) - (sa.hash_len : Int) - layout_offset md := by
  have hoff := layout_offset_range md
  exact span_len_of_range md E m sa (by omega)

/-! ## Verification: aggregation of the two checks -/

/-- C1: for every port, message and non-null policy whose selector of the mode is not
`SPP_NO_SECURITY` and whose SA lookup succeeds, `verify_icv` (immediate) and
`verify_delayed_icv` (delayed) return 0 if and only if `check_icv` reports the ICV as
not invalid and `check_seqnum` reports the sequence number as not invalid; in every
other such case they return -1. -/
theorem verify_accepts_iff_icv_and_seqnum_valid (E : Externals) (md : Mode) (p : port)
    (m : ptp_message) (pol : security_policy) (sa : security_association)
    (hsel : selector md pol ≠ E.SPP_NO_SECURITY)
    (hsa : query_security_association (selector md pol) p.sad = some sa) :
    ∃ o, verify_op md E p m (some pol) = some o ∧
      (o.ret = 0 ↔
        (E.check_icv sa m.mem (span_len md E m sa) 0 (span_len md E m sa) = 0 ∧
          (E.check_seqnum sa m p).1 = 0)) ∧
      (¬ (E.check_icv sa m.mem (span_len md E m sa) 0 (span_len md E m sa) = 0 ∧
          (E.check_seqnum sa m p).1 = 0) → o.ret = -1) := by
  by_cases hi : E.check_icv sa m.mem (span_len md E m sa) 0 (span_len md E m sa) = 0
  · by_cases hs : (E.check_seqnum sa m p).1 = 0
    · exact ⟨_, verify_op_accept E md p m pol sa hsel hsa hi hs,
        ⟨fun _ => ⟨hi, hs⟩, fun _ => rfl⟩, fun h => absurd ⟨hi, hs⟩ h⟩
    · refine ⟨_, verify_op_seqnum_invalid E md p m pol sa hsel hsa hi hs,
        ⟨fun h => ?_, fun h => absurd h.2 hs⟩, fun _ => rfl⟩
      simp at h
  · refine ⟨_, verify_op_icv_invalid E md p m pol sa hsel hsa hi,
      ⟨fun h => ?_, fun h => absurd h.1 hi⟩, fun _ => rfl⟩
    simp at h

/-- Witness of C1 on the reference instance: the protected message `m0_protected` meets
the hypotheses in immediate mode, and `verify_icv` returns 0 on it. -/
theorem verify_accepts_iff_icv_and_seqnum_valid_witness :
    selector Mode.immediate pol0 ≠ E0.SPP_NO_SECURITY ∧
    query_security_association (selector Mode.immediate pol0) p0.sad = some sa0 ∧
    (verify_op Mode.immediate E0 p0 m0_protected (some pol0)).map (fun o => o.ret) = some 0 ∧
    ∃ o, verify_op Mode.immediate E0 p0 m0_protected (some pol0) = some o ∧
      (o.ret = 0 ↔
        (E0.check_icv sa0 m0_protected.mem (span_len Mode.immediate E0 m0_protected sa0) 0
            (span_len Mode.immediate E0 m0_protected sa0) = 0 ∧
          (E0.check_seqnum sa0 m0_protected p0).1 = 0)) ∧
      (¬ (E0.check_icv sa0 m0_protected.mem (span_len Mode.immediate E0 m0_protected sa0) 0
            (span_len Mode.immediate E0 m0_protected sa0) = 0 ∧
          (E0.check_seqnum sa0 m0_protected p0).1 = 0) → o.ret = -1) :=
  ⟨by decide, by decide, by decide,
    verify_accepts_iff_icv_and_seqnum_valid E0 Mode.immediate p0 m0_protected pol0 sa0
      (by decide) (by decide)⟩

/-- C2: in every verification call (`verify_icv` and `verify_delayed_icv`) in which
`check_icv` reports the ICV invalid, the Replay Guard is not invoked, the SA store (and
with it the replay state of the SA) after the call is the one before the call, and the
call is rejected as an ICV failure: it returns -1, `invalidPA` is incremented by 1 and
the diagnostic is the wrong-ICV one, whatever `check_seqnum` would have answered. -/
theorem icv_failure_precedes_replay_guard (E : Externals) (md : Mode) (p : port)
    (m : ptp_message) (pol : security_policy) (sa : security_association)
    (hsel : selector md pol ≠ E.SPP_NO_SECURITY)
    (hsa : query_security_association (selector md pol) p.sad = some sa)
    (hicv : E.check_icv sa m.mem (span_len md E m sa) 0 (span_len md E m sa) ≠ 0) :
    ∃ o, verify_op md E p m (some pol) = some o ∧
      o.ret = -1 ∧
      o.p.stats.invalidPA = counter_succ p.stats.invalidPA ∧
      o.p.stats.validPA = p.stats.validPA ∧
      o.p.sad = p.sad ∧
      o.m = m ∧
      o.trace.all (fun e => !is_check_seqnum e) = true ∧
      o.trace = [Event.query_security_association (selector md pol),
        Event.check_icv sa (span_len md E m sa) 0 (span_len md E m sa),
        Event.pr_err_wrong_icv (selector md pol)] := by
  exact ⟨_, verify_op_icv_invalid E md p m pol sa hsel hsa hicv, rfl, rfl, rfl, rfl, rfl,
    by simp [is_check_seqnum], rfl⟩

/-- Witness of C2 on the reference instance: the unprotected message `m0`, whose
sequence number 7 the Replay Guard would accept, and whose ICV is invalid. -/
theorem icv_failure_precedes_replay_guard_witness :
    selector Mode.immediate pol0 ≠ E0.SPP_NO_SECURITY ∧
    query_security_association (selector Mode.immediate pol0) p0.sad = some sa0 ∧
    E0.check_icv sa0 m0.mem (span_len Mode.immediate E0 m0 sa0) 0
      (span_len Mode.immediate E0 m0 sa0) ≠ 0 ∧
    ∃ o, verify_op Mode.immediate E0 p0 m0 (some pol0) = some o ∧
      o.ret = -1 ∧
      o.p.stats.invalidPA = counter_succ p0.stats.invalidPA ∧
      o.p.stats.validPA = p0.stats.validPA ∧
      o.p.sad = p0.sad ∧
      o.m = m0 ∧
      o.trace.all (fun e => !is_check_seqnum e) = true ∧
      o.trace = [Event.query_security_association (selector Mode.immediate pol0),
        Event.check_icv sa0 (span_len Mode.immediate E0 m0 sa0) 0
          (span_len Mode.immediate E0 m0 sa0),
        Event.pr_err_wrong_icv (selector Mode.immediate pol0)] :=
  ⟨by decide, by decide, by decide,
    icv_failure_precedes_replay_guard E0 Mode.immediate p0 m0 pol0 sa0
      (by decide) (by decide) (by decide)⟩

/-- C3: for every call of `verify_icv` or `verify_delayed_icv` whose selector is not
`SPP_NO_SECURITY` and whose SA lookup succeeds, exactly one of the two counters changes,
by exactly 1: on accept (return 0) `validPA` increases by 1 and `invalidPA` is
unchanged, on rejection (return -1) `invalidPA` increases by 1 and `validPA` is
unchanged.  And no call at all, whatever its policy, decreases a counter or raises the
two counters by more than 1 together.  The counters are 64-bit unsigned fields, taken
below their maximum, where `++` does not wrap. -/
theorem verify_counts_exactly_once (E : Externals) (md : Mode) (p : port)
    (m : ptp_message) (pol : security_policy) (sa : security_association)
    (hsel : selector md pol ≠ E.SPP_NO_SECURITY)
    (hsa : query_security_association (selector md pol) p.sad = some sa)
    (hvalid : p.stats.validPA + 1 < 18446744073709551616)
    (hinvalid : p.stats.invalidPA + 1 < 18446744073709551616) :
    (∃ o, verify_op md E p m (some pol) = some o ∧
      ((o.ret = 0 ∧ o.p.stats.validPA = p.stats.validPA + 1 ∧
          o.p.stats.invalidPA = p.stats.invalidPA) ∨
       (o.ret = -1 ∧ o.p.stats.invalidPA = p.stats.invalidPA + 1 ∧
          o.p.stats.validPA = p.stats.validPA))) ∧
    (∀ (policy : Option security_policy) (o : Outcome),
      verify_op md E p m policy = some o →
        p.stats.validPA ≤ o.p.stats.validPA ∧ p.stats.invalidPA ≤ o.p.stats.invalidPA ∧
        o.p.stats.validPA + o.p.stats.invalidPA ≤ p.stats.validPA + p.stats.invalidPA + 1) := by
  have hv := counter_succ_of_lt _ hvalid
  have hi := counter_succ_of_lt _ hinvalid
  constructor
  · by_cases hicv : E.check_icv sa m.mem (span_len md E m sa) 0 (span_len md E m sa) = 0
    · by_cases hseq : (E.check_seqnum sa m p).1 = 0
      · exact ⟨_, verify_op_accept E md p m pol sa hsel hsa hicv hseq,
          Or.inl ⟨rfl, hv, rfl⟩⟩
      · exact ⟨_, verify_op_seqnum_invalid E md p m pol sa hsel hsa hicv hseq,
          Or.inr ⟨rfl, hi, rfl⟩⟩
    · exact ⟨_, verify_op_icv_invalid E md p m pol sa hsel hsa hicv,
        Or.inr ⟨rfl, hi, rfl⟩⟩
  · intro policy o ho
    cases md <;> rcases policy with _ | pl
    · simp [verify_op, verify_icv] at ho
    · simp only [verify_op, verify_icv] at ho
      split at ho
      · cases ho; simp
      · split at ho
        · cases ho; simp
        · split at ho
          · cases ho; simp only [hi]; omega
          · split at ho <;> cases ho <;> simp only [hi, hv] <;> omega
    · simp [verify_op, verify_delayed_icv] at ho
    · simp only [verify_op, verify_delayed_icv] at ho
      split at ho
      · cases ho; simp
      · split at ho
        · cases ho; simp
        · split at ho
          · cases ho; simp only [hi]; omega
          · split at ho <;> cases ho <;> simp only [hi, hv] <;> omega

/-- Witness of C3 on the reference instance, in delayed mode, on the message `m0`. -/
theorem verify_counts_exactly_once_witness :
    selector Mode.delayed pol0 ≠ E0.SPP_NO_SECURITY ∧
    query_security_association (selector Mode.delayed pol0) p0.sad = some sa0 ∧
    p0.stats.validPA + 1 < 18446744073709551616 ∧
    p0.stats.invalidPA + 1 < 18446744073709551616 ∧
    ((∃ o, verify_op Mode.delayed E0 p0 m0 (some pol0) = some o ∧
      ((o.ret = 0 ∧ o.p.stats.validPA = p0.stats.validPA + 1 ∧
          o.p.stats.invalidPA = p0.stats.invalidPA) ∨
       (o.ret = -1 ∧ o.p.stats.invalidPA = p0.stats.invalidPA + 1 ∧
          o.p.stats.validPA = p0.stats.validPA))) ∧
    (∀ (policy : Option security_policy) (o : Outcome),
      verify_op Mode.delayed E0 p0 m0 policy = some o →
        p0.stats.validPA ≤ o.p.stats.validPA ∧ p0.stats.invalidPA ≤ o.p.stats.invalidPA ∧
        o.p.stats.validPA + o.p.stats.invalidPA ≤
          p0.stats.validPA + p0.stats.invalidPA + 1)) :=
  ⟨by decide, by decide, by decide, by decide,
    verify_counts_exactly_once E0 Mode.delayed p0 m0 pol0 sa0 (by decide) (by decide)
      (by decide) (by decide)⟩

/-! ## Span arithmetic -/

/-- C4: for every message whose header field `messageLength` decodes, big-endian, to
`L` (the value the source obtains with `ntohs`) and every resolved SA of hash length
`H`, the span length handed to the MAC primitive is exactly `L - H` in
`protect_message` and `verify_icv` and exactly `L - H - 42` in
`protect_message_delayed` and `verify_delayed_icv`; in each mode protect and verify
hand the primitive the same ICV offset, the same span start (offset 0) and the same
span length for the same message and SA.  The hash length is at most `2 ^ 31 - 42`, so
that the subtraction stays inside the range of the `int len` of the source. -/
theorem span_length_arithmetic (E : Externals) (md : Mode) (p : port)
    (m : ptp_message) (pol : security_policy) (sa : security_association) (L : Nat)
    (hL : messageLength_be E m = L)
    (hH : sa.hash_len ≤ 2147483606)
    (hsel : selector md pol ≠ E.SPP_NO_SECURITY)
    (hsa : query_security_association (selector md pol) p.sad = some sa) :
    declared_length E m = L ∧
    ∃ (len : Int) (o_protect o_verify : Outcome),
      (len = match md with
        | Mode.immediate => (L : Int) - (sa.hash_len : Int)
        | Mode.delayed => (L : Int) - (sa.hash_len : Int) - 42) ∧
      protect_op md E p m (some pol) = some o_protect ∧
      verify_op md E p m (some pol) = some o_verify ∧
      mac_calls o_protect.trace = [(len, 0, len)] ∧
      mac_calls o_verify.trace = [(len, 0, len)] := by
  refine ⟨by rw [declared_length_eq, hL], ?_⟩
  obtain ⟨ov, hv, hvm, _⟩ := verify_op_resolved E md p m pol sa hsel hsa
  have hp := protect_op_resolved E md p m pol sa hsel hsa
  refine ⟨span_len md E m sa, _, ov, ?_, hp, hv, rfl, hvm⟩
  rw [span_len_of_bound md E m sa hH, hL]
  cases md <;> simp [layout_offset]

/-- Witness of C4 on the reference instance: `m0` declares 50 bytes and `sa0` has a
2-byte ICV, so the delayed span has 50 - 2 - 42 = 6 bytes. -/
theorem span_length_arithmetic_witness :
    messageLength_be E0 m0 = 50 ∧
    sa0.hash_len ≤ 2147483606 ∧
    selector Mode.delayed pol0 ≠ E0.SPP_NO_SECURITY ∧
    query_security_association (selector Mode.delayed pol0) p0.sad = some sa0 ∧
    (declared_length E0 m0 = 50 ∧
    ∃ (len : Int) (o_protect o_verify : Outcome),
      (len = match Mode.delayed with
        | Mode.immediate => ((50 : Nat) : Int) - (sa0.hash_len : Int)
        | Mode.delayed => ((50 : Nat) : Int) - (sa0.hash_len : Int) - 42) ∧
      protect_op Mode.delayed E0 p0 m0 (some pol0) = some o_protect ∧
      verify_op Mode.delayed E0 p0 m0 (some pol0) = some o_verify ∧
      mac_calls o_protect.trace = [(len, 0, len)] ∧
      mac_calls o_verify.trace = [(len, 0, len)]) :=
  ⟨by decide, by decide, by decide, by decide,
    span_length_arithmetic E0 Mode.delayed p0 m0 pol0 sa0 50 (by decide) (by decide)
      (by decide) (by decide)⟩

/-! ## The reference instance meets the contracts -/

/-- The reference instance meets the contract of `append_icv` for the checksum. -/
theorem E0_append_icv_contract : append_icv_contract E0 mac0 :=
  fun _ _ _ _ _ _ => rfl

/-- The reference instance meets the contract of `check_icv` for the checksum. -/
theorem E0_check_icv_contract : check_icv_contract E0 mac0 := by
  intro sa mem icv data len
  show ref_check_icv mac0 sa mem icv data len = 0 ↔ _
  unfold ref_check_icv
  split_ifs with h
  · exact ⟨fun _ => h, fun _ => rfl⟩
  · exact ⟨fun h1 => absurd h1 (by decide), fun h1 => absurd h1 h⟩

/-- The reference instance meets the contract of `check_seqnum` for `seq0`. -/
theorem E0_check_seqnum_contract : check_seqnum_contract E0 seq0 := by
  intro sa m p
  show (seq0 m ≤ sa.seqnum → (ref_check_seqnum sa m p).1 ≠ 0) ∧
    ((ref_check_seqnum sa m p).1 = 0 →
      (ref_check_seqnum sa m p).2 = { sa with seqnum := seq0 m })
  unfold ref_check_seqnum
  split_ifs with h <;> simp [h]

/-! ## Placement of the ICV -/

/-- C5, counterexample: in delayed mode the ICV is not written into the trailing
`H` bytes.  On the message `m0` (declared length 50) with `sa0` (hash length 2),
`protect_message_delayed` writes the range `[6, 8)`: the bytes 6 and 7 receive the ICV
and the trailing bytes 48 and 49 keep their value 0. -/
theorem delayed_icv_region_not_trailing :
    messageLength_be E0 m0 = 50 ∧ sa0.hash_len = 2 ∧
    m0.mem 6 = 0 ∧ m0.mem 7 = 0 ∧ m0.mem 48 = 0 ∧ m0.mem 49 = 0 ∧
    (protect_message_delayed E0 p0 m0 (some pol0)).map
      (fun o => (o.ret, icv_regions o.trace, o.m.mem 6, o.m.mem 7, o.m.mem 48, o.m.mem 49))
      = some (0, [(6, 8)], 56, 56, 0, 0) := by
  decide

/-- C5, amended: for every message of declared length `L` and resolved SA of hash
length `H`, `protect_message` has the ICV written into the trailing `H` bytes
`[L - H, L)`, and `protect_message_delayed` into the `H` bytes `[L - H - 42, L - 42)`
that end 42 bytes before the declared end; in both modes the hashed span handed to
the MAC primitive is `[0, len)` with `len` the start of the ICV region, so it is
disjoint from the ICV region.  With a MAC primitive that meets its contract, the bytes
of the ICV region after the call are the ICV of the span and every other byte is
unchanged.  The hash length is at most `2 ^ 31 - 42`, so that the subtraction stays
inside the range of the `int len` of the source. -/
theorem icv_region_adjoins_hashed_span (E : Externals)
    (mac : security_association → List Nat → List Nat) (md : Mode) (p : port)
    (m : ptp_message) (pol : security_policy) (sa : security_association) (L : Nat)
    (hmac : append_icv_contract E mac)
    (hL : messageLength_be E m = L)
    (hH : sa.hash_len ≤ 2147483606)
    (hsel : selector md pol ≠ E.SPP_NO_SECURITY)
    (hsa : query_security_association (selector md pol) p.sad = some sa) :
    ∃ (o : Outcome) (len : Int),
      (len = match md with
        | Mode.immediate => (L : Int) - (sa.hash_len : Int)
        | Mode.delayed => (L : Int) - (sa.hash_len : Int) - 42) ∧
      protect_op md E p m (some pol) = some o ∧
      o.ret = 0 ∧
      icv_regions o.trace = [(len, len + (sa.hash_len : Int))] ∧
      mac_calls o.trace = [(len, 0, len)] ∧
      Disjoint (Set.Ico (0 : Int) len) (Set.Ico len (len + (sa.hash_len : Int))) ∧
      (∀ i : Int, len ≤ i → i < len + (sa.hash_len : Int) →
        o.m.mem i = icv_byte mac sa (hashed_span m.mem 0 len) (i - len).toNat) ∧
      (∀ i : Int, ¬ (len ≤ i ∧ i < len + (sa.hash_len : Int)) → o.m.mem i = m.mem i) := by
  have hp := protect_op_resolved E md p m pol sa hsel hsa
  refine ⟨_, span_len md E m sa, ?_, hp, rfl, rfl, rfl, ?_, ?_, ?_⟩
  · rw [span_len_of_bound md E m sa hH, hL]
    cases md <;> simp [layout_offset]
  · rw [Set.disjoint_left]
    intro x hx hx2
    simp only [Set.mem_Ico] at hx hx2
    omega
  · intro i h1 h2
    show E.append_icv sa m.mem _ 0 _ i = _
    rw [hmac, if_pos ⟨h1, h2⟩]
  · intro i h
    show E.append_icv sa m.mem _ 0 _ i = _
    rw [hmac, if_neg h]

/-- Witness of the amended C5 on the reference instance, in delayed mode. -/
theorem icv_region_adjoins_hashed_span_witness :
    append_icv_contract E0 mac0 ∧
    messageLength_be E0 m0 = 50 ∧
    sa0.hash_len ≤ 2147483606 ∧
    selector Mode.delayed pol0 ≠ E0.SPP_NO_SECURITY ∧
    query_security_association (selector Mode.delayed pol0) p0.sad = some sa0 ∧
    ∃ (o : Outcome) (len : Int),
      (len = match Mode.delayed with
        | Mode.immediate => ((50 : Nat) : Int) - (sa0.hash_len : Int)
        | Mode.delayed => ((50 : Nat) : Int) - (sa0.hash_len : Int) - 42) ∧
      protect_op Mode.delayed E0 p0 m0 (some pol0) = some o ∧
      o.ret = 0 ∧
      icv_regions o.trace = [(len, len + (sa0.hash_len : Int))] ∧
      mac_calls o.trace = [(len, 0, len)] ∧
      Disjoint (Set.Ico (0 : Int) len) (Set.Ico len (len + (sa0.hash_len : Int))) ∧
      (∀ i : Int, len ≤ i → i < len + (sa0.hash_len : Int) →
        o.m.mem i = icv_byte mac0 sa0 (hashed_span m0.mem 0 len) (i - len).toNat) ∧
      (∀ i : Int, ¬ (len ≤ i ∧ i < len + (sa0.hash_len : Int)) → o.m.mem i = m0.mem i) :=
  ⟨E0_append_icv_contract, by decide, by decide, by decide, by decide,
    icv_region_adjoins_hashed_span E0 mac0 Mode.delayed p0 m0 pol0 sa0 50
      E0_append_icv_contract (by decide) (by decide) (by decide) (by decide)⟩

/-! ## Round trip -/

/-- The bytes of a span depend only on the memory inside the span. -/
theorem hashed_span_congr (mem1 mem2 : Mem) (data len : Int)
    (h : ∀ i : Int, data ≤ i → i < data + len → mem1 i = mem2 i) :
    hashed_span mem1 data len = hashed_span mem2 data len := by
  unfold hashed_span
  apply List.map_congr_left
  intro k hk
  rw [List.mem_range] at hk
  rw [h (data + (k : Int)) (by omega) (by omega)]

/-- The declared length depends only on the two bytes of the field. -/
theorem messageLength_be_congr (E : Externals) (m1 m2 : ptp_message)
    (h0 : m1.mem E.messageLength_off = m2.mem E.messageLength_off)
    (h1 : m1.mem (E.messageLength_off + 1) = m2.mem (E.messageLength_off + 1)) :
    messageLength_be E m1 = messageLength_be E m2 := by
  unfold messageLength_be
  rw [h0, h1]

/-- A byte of an ICV is a byte. -/
theorem icv_byte_mod (mac : security_association → List Nat → List Nat)
    (sa : security_association) (span : List Nat) (k : Nat) :
    icv_byte mac sa span k % 256 = icv_byte mac sa span k := by
  unfold icv_byte
  omega

/-- The span length depends on the message only through the `messageLength` field. -/
theorem span_len_congr (md : Mode) (E : Externals) (m1 m2 : ptp_message)
    (sa : security_association)
    (h0 : m1.mem E.messageLength_off = m2.mem E.messageLength_off)
    (h1 : m1.mem (E.messageLength_off + 1) = m2.mem (E.messageLength_off + 1)) :
    span_len md E m1 sa = span_len md E m2 sa := by
  unfold span_len
  rw [messageLength_be_congr E m1 m2 h0 h1]

/-- C6: round trip.  For every policy with an immediate selector other than
`SPP_NO_SECURITY`, every SA resolved for it with hash length `H`, and every freshly
constructed message of declared length `L >= H`, a message that holds its header,
with the `messageLength` field, before the `H` bytes of the ICV, whose sequence number
the Replay Guard accepts, `verify_icv` applied to the message produced by
`protect_message` returns 0 and increments `validPA` by 1, the MAC primitive meeting
its contract: `append_icv` writes the ICV of the span and `check_icv` reports zero
exactly when the ICV region holds the ICV of the span. -/
theorem protect_then_verify_accepts (E : Externals)
    (mac : security_association → List Nat → List Nat) (p : port)
    (m : ptp_message) (pol : security_policy) (sa : security_association) (L : Nat)
    (header_size : Int)
    (happ : append_icv_contract E mac)
    (hchk : check_icv_contract E mac)
    (hsel : pol.spp_immediate ≠ E.SPP_NO_SECURITY)
    (hsa : query_security_association pol.spp_immediate p.sad = some sa)
    (hL : messageLength_be E m = L)
    (hLH : sa.hash_len ≤ L)
    (hfield : E.messageLength_off + 2 ≤ header_size)
    (hhdr : header_size ≤ (L : Int) - (sa.hash_len : Int))
    (hseq : ∀ o1, protect_message E p m (some pol) = some o1 →
      (E.check_seqnum sa o1.m o1.p).1 = 0) :
    ∃ o1 o2, protect_message E p m (some pol) = some o1 ∧
      verify_icv E o1.p o1.m (some pol) = some o2 ∧
      o1.ret = 0 ∧ o2.ret = 0 ∧
      o2.p.stats.validPA = counter_succ p.stats.validPA ∧
      o2.p.stats.invalidPA = p.stats.invalidPA := by
  have hsel2 : selector Mode.immediate pol ≠ E.SPP_NO_SECURITY := hsel
  have hsa2 : query_security_association (selector Mode.immediate pol) p.sad = some sa := hsa
  have hlt := messageLength_be_lt E m
  have hlenval : span_len Mode.immediate E m sa = (L : Int) - (sa.hash_len : Int) := by
    rw [span_len_of_range Mode.immediate E m sa (by simp only [layout_offset]; omega), hL]
    simp only [layout_offset, sub_zero]
  have hp := protect_op_resolved E Mode.immediate p m pol sa hsel2 hsa2
  have hp1 : protect_message E p m (some pol) = _ := hp
  have hs := hseq _ hp1
  simp only at hs
  have hunch : ∀ i : Int, i < span_len Mode.immediate E m sa →
      E.append_icv sa m.mem (span_len Mode.immediate E m sa) 0
        (span_len Mode.immediate E m sa) i = m.mem i := by
    intro i hi
    rw [happ sa m.mem, if_neg (by omega)]
  have hlen2 : span_len Mode.immediate E
      { m with mem := (E.append_icv sa m.mem (span_len Mode.immediate E m sa) 0
        (span_len Mode.immediate E m sa)) } sa = span_len Mode.immediate E m sa := by
    apply span_len_congr
    · exact hunch _ (by omega)
    · exact hunch _ (by omega)
  have hspan : hashed_span (E.append_icv sa m.mem (span_len Mode.immediate E m sa) 0
      (span_len Mode.immediate E m sa)) 0 (span_len Mode.immediate E m sa) =
      hashed_span m.mem 0 (span_len Mode.immediate E m sa) := by
    apply hashed_span_congr
    intro i _ h1
    exact hunch i (by omega)
  have hc : E.check_icv sa
      (E.append_icv sa m.mem (span_len Mode.immediate E m sa) 0
        (span_len Mode.immediate E m sa))
      (span_len Mode.immediate E m sa) 0 (span_len Mode.immediate E m sa) = 0 := by
    rw [hchk]
    intro k hk
    rw [hspan, happ sa m.mem, if_pos (by omega), icv_byte_mod]
    congr 1
    omega
  have hv := verify_op_accept E Mode.immediate p
    { m with mem := (E.append_icv sa m.mem (span_len Mode.immediate E m sa) 0
      (span_len Mode.immediate E m sa)) } pol sa hsel2 hsa2 (by rw [hlen2]; exact hc) hs
  exact ⟨_, _, hp1, hv, rfl, rfl, rfl, rfl⟩

/-- Witness of C6 on the reference instance: `m0` declares 50 bytes, its header of 34
bytes holds the `messageLength` field at offsets 2 and 3, and the ICV region is
`[48, 50)`. -/
theorem protect_then_verify_accepts_witness :
    append_icv_contract E0 mac0 ∧ check_icv_contract E0 mac0 ∧
    pol0.spp_immediate ≠ E0.SPP_NO_SECURITY ∧
    query_security_association pol0.spp_immediate p0.sad = some sa0 ∧
    messageLength_be E0 m0 = 50 ∧ sa0.hash_len ≤ 50 ∧
    E0.messageLength_off + 2 ≤ 34 ∧
    (34 : Int) ≤ ((50 : Nat) : Int) - (sa0.hash_len : Int) ∧
    (∀ o1, protect_message E0 p0 m0 (some pol0) = some o1 →
      (E0.check_seqnum sa0 o1.m o1.p).1 = 0) ∧
    ∃ o1 o2, protect_message E0 p0 m0 (some pol0) = some o1 ∧
      verify_icv E0 o1.p o1.m (some pol0) = some o2 ∧
      o1.ret = 0 ∧ o2.ret = 0 ∧
      o2.p.stats.validPA = counter_succ p0.stats.validPA ∧
      o2.p.stats.invalidPA = p0.stats.invalidPA :=
  have hseq : ∀ o1, protect_message E0 p0 m0 (some pol0) = some o1 →
      (E0.check_seqnum sa0 o1.m o1.p).1 = 0 := by
    intro o1 h
    have h2 : (protect_message E0 p0 m0 (some pol0)).map
        (fun o => (E0.check_seqnum sa0 o.m o.p).1) = some 0 := by decide
    rw [h] at h2
    simpa using h2
  ⟨E0_append_icv_contract, E0_check_icv_contract, by decide, by decide, by decide,
    by decide, by decide, by decide, hseq,
    protect_then_verify_accepts E0 mac0 p0 m0 pol0 sa0 50 34 E0_append_icv_contract
      E0_check_icv_contract (by decide) (by decide) (by decide) (by decide) (by decide)
      (by decide) hseq⟩

/-! ## Tampering -/

/-- Flipping a bit leaves the other bytes as they are. -/
theorem flip_bit_of_ne (mem : Mem) (j : Int) (b : Nat) (i : Int) (h : i ≠ j) :
    flip_bit mem j b i = mem i := by
  unfold flip_bit
  exact Function.update_noteq h _ _

/-- Flipping a bit of memories that agree on a range gives memories that agree on the
range. -/
theorem flip_bit_congr (mem1 mem2 : Mem) (j : Int) (b : Nat) (i : Int)
    (hi : mem1 i = mem2 i) (hj : mem1 j = mem2 j) :
    flip_bit mem1 j b i = flip_bit mem2 j b i := by
  unfold flip_bit
  by_cases h : i = j
  · subst h
    simp [hi]
  · rw [Function.update_noteq h, Function.update_noteq h, hi]

/-- C7, counterexample: a flipped bit of `messageLength`, inside the hashed span, is
not detected.  `m_crafted` declares 50 bytes; `protect_message` hashes `[0, 48)` and
writes the ICV at `[48, 50)`.  Flipping bit 5 of the byte at offset 3 makes the
message declare 18 bytes; `verify_icv` then hashes `[0, 16)` and finds at `[16, 18)`
the bytes the message carried there, which are the ICV of that shorter span: it
returns 0 and increments `validPA`. -/
theorem tampered_length_field_accepted :
    messageLength_be E0 m_crafted = 50 ∧ sa0.hash_len = 2 ∧ E0.messageLength_off = 2 ∧
    (protect_message E0 p0 m_crafted (some pol0)).map
      (fun o => (o.ret, mac_calls o.trace, o.m.mem 3, flip_bit o.m.mem 3 5 3))
      = some (0, [(48, 0, 48)], 50, 18) ∧
    ((protect_message E0 p0 m_crafted (some pol0)).bind
      (fun o => verify_icv E0 o.p { o.m with mem := flip_bit o.m.mem 3 5 } (some pol0))).map
      (fun o => (o.ret, o.p.stats, mac_calls o.trace))
      = some (0, { validPA := 1, invalidPA := 0 }, [(16, 0, 16)]) :=
  ⟨by decide, by decide, by decide, by decide, by decide⟩

/-- C7, amended: tamper test.  For every message protected by `protect_message` (resp.
`protect_message_delayed`) whose `messageLength` field lies inside the hashed span,
flipping a single bit of the hashed span outside the `messageLength` field, for which
the MAC function gives the tampered span an ICV different from that of the original
span, and then calling `verify_icv` (resp. `verify_delayed_icv`) with the same policy
and SA returns -1 on the ICV check, before the Replay Guard is consulted, increments
`invalidPA` by exactly 1 and leaves `validPA` and the SA store unchanged; the MAC
primitive meeting its contract. -/
theorem tampered_span_rejected (E : Externals)
    (mac : security_association → List Nat → List Nat) (md : Mode) (p : port)
    (m : ptp_message) (pol : security_policy) (sa : security_association)
    (j : Int) (b : Nat)
    (happ : append_icv_contract E mac)
    (hchk : check_icv_contract E mac)
    (hsel : selector md pol ≠ E.SPP_NO_SECURITY)
    (hsa : query_security_association (selector md pol) p.sad = some sa)
    (hfield : E.messageLength_off + 2 ≤ span_len md E m sa)
    (_hj0 : 0 ≤ j) (hj1 : j < span_len md E m sa) (_hb : b < 8)
    (hjlen : j ≠ E.messageLength_off ∧ j ≠ E.messageLength_off + 1)
    (hmac : icv_bytes mac sa (hashed_span (flip_bit m.mem j b) 0 (span_len md E m sa)) ≠
      icv_bytes mac sa (hashed_span m.mem 0 (span_len md E m sa))) :
    ∃ o1 o2, protect_op md E p m (some pol) = some o1 ∧
      verify_op md E o1.p { o1.m with mem := flip_bit o1.m.mem j b } (some pol) = some o2 ∧
      o2.ret = -1 ∧
      o2.p.stats.invalidPA = counter_succ p.stats.invalidPA ∧
      o2.p.stats.validPA = p.stats.validPA ∧
      o2.p.sad = p.sad ∧
      o2.trace.all (fun e => !is_check_seqnum e) = true ∧
      o2.trace.getLast? = some (Event.pr_err_wrong_icv (selector md pol)) := by
  have hp := protect_op_resolved E md p m pol sa hsel hsa
  have hunch : ∀ i : Int, i < span_len md E m sa →
      E.append_icv sa m.mem (span_len md E m sa) 0 (span_len md E m sa) i = m.mem i := by
    intro i hi
    rw [happ sa m.mem, if_neg (by omega)]
  have hlen : span_len md E
      { m with mem := (flip_bit
        (E.append_icv sa m.mem (span_len md E m sa) 0 (span_len md E m sa)) j b) } sa =
      span_len md E m sa := by
    apply span_len_congr
    · show flip_bit _ j b E.messageLength_off = _
      rw [flip_bit_of_ne _ _ _ _ (Ne.symm hjlen.1), hunch _ (by omega)]
    · show flip_bit _ j b (E.messageLength_off + 1) = _
      rw [flip_bit_of_ne _ _ _ _ (Ne.symm hjlen.2), hunch _ (by omega)]
  have hspan : hashed_span (flip_bit
        (E.append_icv sa m.mem (span_len md E m sa) 0 (span_len md E m sa)) j b) 0
        (span_len md E m sa) =
      hashed_span (flip_bit m.mem j b) 0 (span_len md E m sa) := by
    apply hashed_span_congr
    intro i _ h1
    exact flip_bit_congr _ _ j b i (hunch i (by omega)) (hunch j hj1)
  have hicv : E.check_icv sa
      (flip_bit (E.append_icv sa m.mem (span_len md E m sa) 0 (span_len md E m sa)) j b)
      (span_len md E m sa) 0 (span_len md E m sa) ≠ 0 := by
    intro h
    rw [hchk, hspan] at h
    apply hmac
    unfold icv_bytes
    apply List.map_congr_left
    intro k hk
    rw [List.mem_range] at hk
    have hk2 := h k hk
    rw [flip_bit_of_ne _ _ _ _ (by omega), happ sa m.mem, if_pos (by omega),
      icv_byte_mod] at hk2
    rw [← hk2]
    congr 1
    omega
  have hv := verify_op_icv_invalid E md p
    { m with mem := (flip_bit
      (E.append_icv sa m.mem (span_len md E m sa) 0 (span_len md E m sa)) j b) }
    pol sa hsel hsa (by rw [hlen]; exact hicv)
  exact ⟨_, _, hp, hv, rfl, rfl, rfl, rfl, by simp [is_check_seqnum], by simp⟩

/-- Witness of the amended C7 on the reference instance: bit 0 of the byte at offset 0
of `m0`, in immediate mode; the checksum of the tampered span differs from that of
the original span. -/
theorem tampered_span_rejected_witness :
    append_icv_contract E0 mac0 ∧ check_icv_contract E0 mac0 ∧
    selector Mode.immediate pol0 ≠ E0.SPP_NO_SECURITY ∧
    query_security_association (selector Mode.immediate pol0) p0.sad = some sa0 ∧
    E0.messageLength_off + 2 ≤ span_len Mode.immediate E0 m0 sa0 ∧
    (0 : Int) ≤ 0 ∧ (0 : Int) < span_len Mode.immediate E0 m0 sa0 ∧ 0 < 8 ∧
    ((0 : Int) ≠ E0.messageLength_off ∧ (0 : Int) ≠ E0.messageLength_off + 1) ∧
    icv_bytes mac0 sa0 (hashed_span (flip_bit m0.mem 0 0) 0
        (span_len Mode.immediate E0 m0 sa0)) ≠
      icv_bytes mac0 sa0 (hashed_span m0.mem 0 (span_len Mode.immediate E0 m0 sa0)) ∧
    ∃ o1 o2, protect_op Mode.immediate E0 p0 m0 (some pol0) = some o1 ∧
      verify_op Mode.immediate E0 o1.p { o1.m with mem := flip_bit o1.m.mem 0 0 }
        (some pol0) = some o2 ∧
      o2.ret = -1 ∧
      o2.p.stats.invalidPA = counter_succ p0.stats.invalidPA ∧
      o2.p.stats.validPA = p0.stats.validPA ∧
      o2.p.sad = p0.sad ∧
      o2.trace.all (fun e => !is_check_seqnum e) = true ∧
      o2.trace.getLast? = some (Event.pr_err_wrong_icv (selector Mode.immediate pol0)) :=
  ⟨E0_append_icv_contract, E0_check_icv_contract, by decide, by decide, by decide,
    by decide, by decide, by decide, by decide, by decide,
    tampered_span_rejected E0 mac0 Mode.immediate p0 m0 pol0 sa0 0 0
      E0_append_icv_contract E0_check_icv_contract (by decide) (by decide) (by decide)
      (by decide) (by decide) (by decide) (by decide) (by decide)⟩

/-! ## Replay -/

/-- C8: replay test.  For every message that `verify_icv` has accepted (selector other
than `SPP_NO_SECURITY`, return value 0), calling `verify_icv` again on the same message
against the port and SA store the first call left returns -1 at the sequence check,
after a valid ICV, leaves `validPA` as the first call left it and increments
`invalidPA` by 1; the Replay Guard meeting its contract (a sequence number that does not
advance is reported invalid, an accepted one is recorded as high-water sequence), and
the MAC check not depending on the replay state of the SA. -/
theorem replayed_message_rejected (E : Externals) (seq : ptp_message → Nat) (p : port)
    (m : ptp_message) (pol : security_policy)
    (hguard : check_seqnum_contract E seq)
    (hmac : ∀ (sa : security_association) (n : Nat) (mem : Mem) (icv data len : Int),
      E.check_icv { sa with seqnum := n } mem icv data len = E.check_icv sa mem icv data len)
    (hsel : pol.spp_immediate ≠ E.SPP_NO_SECURITY)
    (hacc : (verify_icv E p m (some pol)).map (fun o => o.ret) = some 0) :
    ∃ (o1 o2 : Outcome) (sa2 : security_association) (len : Int),
      verify_icv E p m (some pol) = some o1 ∧
      o1.ret = 0 ∧ o1.m = m ∧
      o1.p.stats.validPA = counter_succ p.stats.validPA ∧
      o1.p.stats.invalidPA = p.stats.invalidPA ∧
      verify_icv E o1.p o1.m (some pol) = some o2 ∧
      o2.ret = -1 ∧
      o2.p.stats.validPA = o1.p.stats.validPA ∧
      o2.p.stats.invalidPA = counter_succ o1.p.stats.invalidPA ∧
      E.check_icv sa2 m.mem len 0 len = 0 ∧
      o2.trace = [Event.query_security_association pol.spp_immediate,
        Event.check_icv sa2 len 0 len,
        Event.pr_info_icv_verified,
        Event.check_seqnum sa2,
        Event.pr_err_seqnum] := by
  have hsel2 : selector Mode.immediate pol ≠ E.SPP_NO_SECURITY := hsel
  cases hq : query_security_association pol.spp_immediate p.sad with
  | none =>
    simp [verify_icv, hsel, hq] at hacc
  | some sa =>
    have hq2 : query_security_association (selector Mode.immediate pol) p.sad = some sa := hq
    by_cases hi : E.check_icv sa m.mem (span_len Mode.immediate E m sa) 0
        (span_len Mode.immediate E m sa) = 0
    · by_cases hs : (E.check_seqnum sa m p).1 = 0
      · have h1 := verify_op_accept E Mode.immediate p m pol sa hsel2 hq2 hi hs
        have hrec := (hguard sa m p).2 hs
        have hq3 : query_security_association (selector Mode.immediate pol)
            (Function.update p.sad (selector Mode.immediate pol)
              (some (E.check_seqnum sa m p).2)) = some { sa with seqnum := seq m } := by
          unfold query_security_association
          rw [Function.update_same, hrec]
        have hlen : span_len Mode.immediate E m { sa with seqnum := seq m } =
            span_len Mode.immediate E m sa := rfl
        have hi2 : E.check_icv { sa with seqnum := seq m } m.mem
            (span_len Mode.immediate E m { sa with seqnum := seq m }) 0
            (span_len Mode.immediate E m { sa with seqnum := seq m }) = 0 := by
          rw [hlen, hmac]
          exact hi
        have h2 := verify_op_seqnum_invalid E Mode.immediate
          { sad := Function.update p.sad (selector Mode.immediate pol)
              (some (E.check_seqnum sa m p).2),
            stats := { p.stats with validPA := counter_succ p.stats.validPA } }
          m pol { sa with seqnum := seq m } hsel2 hq3 hi2
          ((hguard { sa with seqnum := seq m } m _).1 (le_refl _))
        exact ⟨_, _, { sa with seqnum := seq m }, span_len Mode.immediate E m sa,
          h1, rfl, rfl, rfl, rfl, h2, rfl, rfl, rfl, hi2, rfl⟩
      · have h1 := verify_op_seqnum_invalid E Mode.immediate p m pol sa hsel2 hq2 hi hs
        have h1b : verify_icv E p m (some pol) = _ := h1
        rw [h1b] at hacc
        simp at hacc
    · have h1 := verify_op_icv_invalid E Mode.immediate p m pol sa hsel2 hq2 hi
      have h1b : verify_icv E p m (some pol) = _ := h1
      rw [h1b] at hacc
      simp at hacc

/-- Witness of C8 on the reference instance: `verify_icv` accepts the protected message
`m0_protected`. -/
theorem replayed_message_rejected_witness :
    check_seqnum_contract E0 seq0 ∧
    (∀ (sa : security_association) (n : Nat) (mem : Mem) (icv data len : Int),
      E0.check_icv { sa with seqnum := n } mem icv data len =
        E0.check_icv sa mem icv data len) ∧
    pol0.spp_immediate ≠ E0.SPP_NO_SECURITY ∧
    (verify_icv E0 p0 m0_protected (some pol0)).map (fun o => o.ret) = some 0 ∧
    ∃ (o1 o2 : Outcome) (sa2 : security_association) (len : Int),
      verify_icv E0 p0 m0_protected (some pol0) = some o1 ∧
      o1.ret = 0 ∧ o1.m = m0_protected ∧
      o1.p.stats.validPA = counter_succ p0.stats.validPA ∧
      o1.p.stats.invalidPA = p0.stats.invalidPA ∧
      verify_icv E0 o1.p o1.m (some pol0) = some o2 ∧
      o2.ret = -1 ∧
      o2.p.stats.validPA = o1.p.stats.validPA ∧
      o2.p.stats.invalidPA = counter_succ o1.p.stats.invalidPA ∧
      E0.check_icv sa2 m0_protected.mem len 0 len = 0 ∧
      o2.trace = [Event.query_security_association pol0.spp_immediate,
        Event.check_icv sa2 len 0 len,
        Event.pr_info_icv_verified,
        Event.check_seqnum sa2,
        Event.pr_err_seqnum] :=
  ⟨E0_check_seqnum_contract, fun _ _ _ _ _ _ => rfl, by decide, by decide,
    replayed_message_rejected E0 seq0 p0 m0_protected pol0 E0_check_seqnum_contract
      (fun _ _ _ _ _ _ => rfl) (by decide) (by decide)⟩

/-! ## The bypass and the missing SA -/

/-- C9: for every non-null policy whose selector of the mode is `SPP_NO_SECURITY`
(`spp_immediate` for `authentication_append_immediate`, `protect_message`, `verify_icv`;
`spp_delayed` for `authentication_append_delayed`, `protect_message_delayed`,
`verify_delayed_icv`), each of the six operations returns 0 and does nothing: no
collaborator is called (no SA lookup), and the message and the port, with its counters
`validPA` and `invalidPA`, are those before the call. -/
theorem no_security_is_noop (E : Externals) (md : Mode) (p : port) (m : ptp_message)
    (pol : security_policy) (hsel : selector md pol = E.SPP_NO_SECURITY) :
    append_op md E p m (some pol) = ⟨0, p, m, []⟩ ∧
    protect_op md E p m (some pol) = some ⟨0, p, m, []⟩ ∧
    verify_op md E p m (some pol) = some ⟨0, p, m, []⟩ := by
  cases md <;>
    simp only [selector] at hsel <;>
    simp [append_op, protect_op, verify_op, authentication_append_immediate,
      authentication_append_delayed, protect_message, protect_message_delayed, verify_icv,
      verify_delayed_icv, hsel]

/-- Witness of C9 on the reference instance: the policy `pol_none`, in delayed mode. -/
theorem no_security_is_noop_witness :
    selector Mode.delayed pol_none = E0.SPP_NO_SECURITY ∧
    append_op Mode.delayed E0 p0 m0 (some pol_none) = ⟨0, p0, m0, []⟩ ∧
    protect_op Mode.delayed E0 p0 m0 (some pol_none) = some ⟨0, p0, m0, []⟩ ∧
    verify_op Mode.delayed E0 p0 m0 (some pol_none) = some ⟨0, p0, m0, []⟩ :=
  ⟨by decide, no_security_is_noop E0 Mode.delayed p0 m0 pol_none (by decide)⟩

/-- C10: missing SA.  For every non-null policy whose selector of the mode is not
`SPP_NO_SECURITY` and for which `query_security_association` returns no SA, each of the
six operations returns -1, and the message and the port, with its counters `validPA` and
`invalidPA`, are those before the call; the only collaborator called is the SA lookup:
no TLV space is reserved and neither the MAC primitive nor the Replay Guard is
invoked. -/
theorem missing_sa_fails (E : Externals) (md : Mode) (p : port) (m : ptp_message)
    (pol : security_policy)
    (hsel : selector md pol ≠ E.SPP_NO_SECURITY)
    (hsa : query_security_association (selector md pol) p.sad = none) :
    append_op md E p m (some pol) =
      ⟨-1, p, m, [Event.query_security_association (selector md pol)]⟩ ∧
    protect_op md E p m (some pol) =
      some ⟨-1, p, m, [Event.query_security_association (selector md pol)]⟩ ∧
    verify_op md E p m (some pol) =
      some ⟨-1, p, m, [Event.query_security_association (selector md pol)]⟩ ∧
    [Event.query_security_association (selector md pol)].all
      (fun e => !is_msg_tlv_append e && !is_mac_call e && !is_check_seqnum e) = true := by
  cases md <;>
    simp only [selector] at hsel hsa <;>
    simp [append_op, protect_op, verify_op, authentication_append_immediate,
      authentication_append_delayed, protect_message, protect_message_delayed, verify_icv,
      verify_delayed_icv, hsel, hsa, selector, is_msg_tlv_append, is_mac_call,
      is_check_seqnum]

/-- Witness of C10 on the reference instance: the policy `pol_missing`, whose profile
ids are not in the store, in immediate mode. -/
theorem missing_sa_fails_witness :
    selector Mode.immediate pol_missing ≠ E0.SPP_NO_SECURITY ∧
    query_security_association (selector Mode.immediate pol_missing) p0.sad = none ∧
    (append_op Mode.immediate E0 p0 m0 (some pol_missing) =
      ⟨-1, p0, m0, [Event.query_security_association (selector Mode.immediate pol_missing)]⟩ ∧
    protect_op Mode.immediate E0 p0 m0 (some pol_missing) =
      some ⟨-1, p0, m0,
        [Event.query_security_association (selector Mode.immediate pol_missing)]⟩ ∧
    verify_op Mode.immediate E0 p0 m0 (some pol_missing) =
      some ⟨-1, p0, m0,
        [Event.query_security_association (selector Mode.immediate pol_missing)]⟩ ∧
    [Event.query_security_association (selector Mode.immediate pol_missing)].all
      (fun e => !is_msg_tlv_append e && !is_mac_call e && !is_check_seqnum e) = true) :=
  ⟨by decide, by decide,
    missing_sa_fails E0 Mode.immediate p0 m0 pol_missing (by decide) (by decide)⟩

/-! ## The absent policy -/

/-- C11: for every port and message, `authentication_append_delayed` and
`authentication_append_immediate` called with an absent (null) policy return -1 and do
nothing else: no collaborator is called (no SA lookup, no reservation of TLV space) and
the message and the port are those before the call. -/
theorem append_with_null_policy_fails (E : Externals) (md : Mode) (p : port)
    (m : ptp_message) :
    append_op md E p m none = ⟨-1, p, m, []⟩ ∧
    authentication_append_delayed E p m none = ⟨-1, p, m, []⟩ ∧
    authentication_append_immediate E p m none = ⟨-1, p, m, []⟩ := by
  cases md <;> exact ⟨rfl, rfl, rfl⟩

/-- C12, the code at the failing input: with an absent (null) policy the four
operations `protect_message`, `protect_message_delayed`, `verify_icv` and
`verify_delayed_icv` give no result at all: each reads `policy->spp_immediate` or
`policy->spp_delayed` before any test of the pointer, where the two append operations
test it first and return -1. -/
theorem protect_and_verify_dereference_null_policy (E : Externals) (p : port)
    (m : ptp_message) :
    protect_message E p m none = none ∧
    protect_message_delayed E p m none = none ∧
    verify_icv E p m none = none ∧
    verify_delayed_icv E p m none = none ∧
    (authentication_append_immediate E p m none).ret = -1 ∧
    (authentication_append_delayed E p m none).ret = -1 :=
  ⟨rfl, rfl, rfl, rfl, rfl, rfl⟩

/-! ## The Authentication TLV written by the builder -/

/-- A byte store leaves the other bytes as they are. -/
theorem store_u8_of_ne (mem : Mem) (a : Int) (v : Nat) (i : Int) (h : i ≠ a) :
    store_u8 mem a v i = mem i :=
  Function.update_noteq h _ _

/-- A 16-bit store changes the two bytes of the field only. -/
theorem store_u16_of_out (be : Bool) (mem : Mem) (a : Int) (v : Nat) (i : Int)
    (h : i < a ∨ a + 2 ≤ i) : store_u16 be mem a v i = mem i := by
  cases be <;>
    simp only [store_u16, if_true, Bool.false_eq_true, if_false] <;>
    rw [store_u8_of_ne _ _ _ _ (by omega), store_u8_of_ne _ _ _ _ (by omega)]

/-- A 32-bit store changes the four bytes of the field only. -/
theorem store_u32_of_out (be : Bool) (mem : Mem) (a : Int) (v : Nat) (i : Int)
    (h : i < a ∨ a + 4 ≤ i) : store_u32 be mem a v i = mem i := by
  cases be <;>
    simp only [store_u32, if_true, Bool.false_eq_true, if_false] <;>
    rw [store_u8_of_ne _ _ _ _ (by omega), store_u8_of_ne _ _ _ _ (by omega),
      store_u8_of_ne _ _ _ _ (by omega), store_u8_of_ne _ _ _ _ (by omega)]

/-- A copy changes the bytes of the destination only. -/
theorem memcpy_of_out (mem : Mem) (a : Int) (src : List Nat) (n : Nat) (i : Int)
    (h : i < a ∨ a + (n : Int) ≤ i) : memcpy mem a src n i = mem i := by
  unfold memcpy
  rw [if_neg (by omega)]

/-- A 16-bit load reads the two bytes of the field only. -/
theorem load_u16_congr (be : Bool) (mem1 mem2 : Mem) (a : Int)
    (h : ∀ i : Int, a ≤ i → i < a + 2 → mem1 i = mem2 i) :
    load_u16 be mem1 a = load_u16 be mem2 a := by
  unfold load_u16
  rw [h a (by omega) (by omega), h (a + 1) (by omega) (by omega)]

/-- A 32-bit load reads the four bytes of the field only. -/
theorem load_u32_congr (be : Bool) (mem1 mem2 : Mem) (a : Int)
    (h : ∀ i : Int, a ≤ i → i < a + 4 → mem1 i = mem2 i) :
    load_u32 be mem1 a = load_u32 be mem2 a := by
  unfold load_u32
  rw [h a (by omega) (by omega), h (a + 1) (by omega) (by omega),
    h (a + 2) (by omega) (by omega), h (a + 3) (by omega) (by omega)]

/-- A 16-bit field reads back as stored. -/
theorem load_store_u16 (be : Bool) (mem : Mem) (a : Int) (v : Nat) (hv : v < 65536) :
    load_u16 be (store_u16 be mem a v) a = v := by
  cases be <;>
    simp [load_u16, store_u16, store_u8, Function.update_apply] <;> omega

/-- A 32-bit field reads back as stored. -/
theorem load_store_u32 (be : Bool) (mem : Mem) (a : Int) (v : Nat)
    (hv : v < 4294967296) :
    load_u32 be (store_u32 be mem a v) a = v := by
  cases be <;>
    simp [load_u32, store_u32, store_u8, Function.update_apply] <;> omega

/-- A byte reads back as stored. -/
theorem load_store_u8 (mem : Mem) (a : Int) (v : Nat) (hv : v < 256) :
    load_u8 (store_u8 mem a v) a = v := by
  simp [load_u8, store_u8]
  omega

/-- Outcome of `authentication_append_immediate` once the SA is resolved and the TLV
space reserved. -/
theorem append_immediate_reserved (E : Externals) (p : port) (m : ptp_message)
    (pol : security_policy) (sa : security_association) (m1 : ptp_message) (auth : Int)
    (hsel : pol.spp_immediate ≠ E.SPP_NO_SECURITY)
    (hsa : query_security_association pol.spp_immediate p.sad = some sa)
    (hres : E.msg_tlv_append m (10 + sa.hash_len) = some (m1, auth)) :
    authentication_append_immediate E p m (some pol) =
      ⟨0, p,
        { m1 with mem :=
          (store_u32 E.host_big_endian
            (store_u8
              (store_u8
                (store_u16 E.host_big_endian
                  (store_u16 E.host_big_endian m1.mem auth E.TLV_AUTHENTICATION)
                  (auth + 2) (6 + sa.hash_len))
                (auth + 4) pol.spp_immediate)
              (auth + 5) (E.SEC_PARAM_INDICATOR E.NOT_PRESENT E.NOT_PRESENT E.NOT_PRESENT))
            (auth + 6) sa.key_id) },
        [Event.query_security_association pol.spp_immediate,
         Event.msg_tlv_append (10 + sa.hash_len)]⟩ := by
  simp only [authentication_append_immediate, hsel, hsa, if_false,
    sizeof_authentication_tlv_immediate, hres]

/-- Outcome of `authentication_append_delayed` once the SA is resolved and the TLV
space reserved. -/
theorem append_delayed_reserved (E : Externals) (p : port) (m : ptp_message)
    (pol : security_policy) (sa : security_association) (m1 : ptp_message) (auth : Int)
    (hsel : pol.spp_delayed ≠ E.SPP_NO_SECURITY)
    (hsa : query_security_association pol.spp_delayed p.sad = some sa)
    (hres : E.msg_tlv_append m (42 + sa.hash_len) = some (m1, auth)) :
    authentication_append_delayed E p m (some pol) =
      ⟨0, p,
        { m1 with mem :=
          (memcpy
            (store_u32 E.host_big_endian
              (store_u8
                (store_u8
                  (store_u16 E.host_big_endian
                    (store_u16 E.host_big_endian m1.mem auth E.TLV_AUTHENTICATION)
                    (auth + 2) (38 + sa.hash_len))
                  (auth + 4) pol.spp_delayed)
                (auth + 5) (E.SEC_PARAM_INDICATOR E.PRESENT E.PRESENT E.PRESENT))
              (auth + 6) sa.key_id)
            (auth + 10) sa.key 32) },
        [Event.query_security_association pol.spp_delayed,
         Event.msg_tlv_append (42 + sa.hash_len)]⟩ := by
  simp only [authentication_append_delayed, hsel, hsa, if_false,
    sizeof_authentication_tlv_delayed, hres]

/-- C13: for every non-null policy with a selector other than `SPP_NO_SECURITY`, every
SA resolved for it with hash length `H`, and every message for which `msg_tlv_append`
succeeds, the append operation of the mode returns 0, reserves exactly `10 + H`
(immediate) or `42 + H` (delayed) bytes and writes, at the reserved offset, type =
`TLV_AUTHENTICATION`, length = `6 + H` or `38 + H`, spp = the selector of the policy,
secParamIndicator = the three flags `NOT_PRESENT` or the three flags `PRESENT`, keyId =
the key id of the SA (4 bytes) and, in delayed mode, disclosedKey = the first 32 bytes
of the key of the SA; the reserved byte count is the written length plus 4.  The
values are taken to fit the fields they are stored in. -/
theorem append_writes_authentication_tlv (E : Externals) (md : Mode) (p : port)
    (m : ptp_message) (pol : security_policy) (sa : security_association)
    (m1 : ptp_message) (auth : Int)
    (hsel : selector md pol ≠ E.SPP_NO_SECURITY)
    (hsa : query_security_association (selector md pol) p.sad = some sa)
    (hres : E.msg_tlv_append m (tlv_header_size md + sa.hash_len) = some (m1, auth))
    (htype : E.TLV_AUTHENTICATION < 65536)
    (hlen : tlv_header_size md - 4 + sa.hash_len < 65536)
    (hspp : selector md pol < 256)
    (hflag : E.SEC_PARAM_INDICATOR (indicator_flag md E) (indicator_flag md E)
      (indicator_flag md E) < 256)
    (hkid : sa.key_id < 4294967296)
    (hkey : ∀ b ∈ sa.key, b < 256) :
    (append_op md E p m (some pol)).ret = 0 ∧
    (append_op md E p m (some pol)).p = p ∧
    (append_op md E p m (some pol)).trace =
      [Event.query_security_association (selector md pol),
       Event.msg_tlv_append (tlv_header_size md + sa.hash_len)] ∧
    (append_op md E p m (some pol)).m.tlv_list = m1.tlv_list ∧
    load_u16 E.host_big_endian (append_op md E p m (some pol)).m.mem auth =
      E.TLV_AUTHENTICATION ∧
    load_u16 E.host_big_endian (append_op md E p m (some pol)).m.mem (auth + 2) =
      tlv_header_size md - 4 + sa.hash_len ∧
    load_u8 (append_op md E p m (some pol)).m.mem (auth + 4) = selector md pol ∧
    load_u8 (append_op md E p m (some pol)).m.mem (auth + 5) =
      E.SEC_PARAM_INDICATOR (indicator_flag md E) (indicator_flag md E)
        (indicator_flag md E) ∧
    load_u32 E.host_big_endian (append_op md E p m (some pol)).m.mem (auth + 6) =
      sa.key_id ∧
    (md = Mode.delayed → ∀ i : Nat, i < 32 →
      (append_op md E p m (some pol)).m.mem (auth + 10 + (i : Int)) = sa.key.getD i 0) ∧
    tlv_header_size md + sa.hash_len = (tlv_header_size md - 4 + sa.hash_len) + 4 ∧
    (tlv_header_size md = match md with
      | Mode.immediate => 10
      | Mode.delayed => 42) := by
  cases md
  · simp only [selector, tlv_header_size, indicator_flag] at hsel hsa hres hlen hspp hflag
    have ho := append_immediate_reserved E p m pol sa m1 auth hsel hsa hres
    have ho2 : append_op Mode.immediate E p m (some pol) = _ := ho
    rw [ho2]
    refine ⟨rfl, rfl, rfl, rfl, ?_, ?_, ?_, ?_, ?_, ?_,
      by simp only [tlv_header_size]; omega, rfl⟩
    · rw [load_u16_congr _ _ (store_u16 E.host_big_endian m1.mem auth E.TLV_AUTHENTICATION)]
      · exact load_store_u16 _ _ _ _ htype
      · intro i h0 h1
        show store_u32 _ _ _ _ i = _
        rw [store_u32_of_out _ _ _ _ _ (by omega), store_u8_of_ne _ _ _ _ (by omega),
          store_u8_of_ne _ _ _ _ (by omega), store_u16_of_out _ _ _ _ _ (by omega)]
    · rw [load_u16_congr _ _ (store_u16 E.host_big_endian
        (store_u16 E.host_big_endian m1.mem auth E.TLV_AUTHENTICATION) (auth + 2)
        (6 + sa.hash_len))]
      · exact load_store_u16 _ _ _ _ (by omega)
      · intro i h0 h1
        show store_u32 _ _ _ _ i = _
        rw [store_u32_of_out _ _ _ _ _ (by omega), store_u8_of_ne _ _ _ _ (by omega),
          store_u8_of_ne _ _ _ _ (by omega)]
    · show store_u32 _ _ _ _ (auth + 4) % 256 = _
      rw [store_u32_of_out _ _ _ _ _ (by omega), store_u8_of_ne _ _ _ _ (by omega)]
      exact load_store_u8 _ _ _ hspp
    · show store_u32 _ _ _ _ (auth + 5) % 256 = _
      rw [store_u32_of_out _ _ _ _ _ (by omega)]
      exact load_store_u8 _ _ _ hflag
    · exact load_store_u32 _ _ _ _ hkid
    · intro h
      exact absurd h (by decide)
  · simp only [selector, tlv_header_size, indicator_flag] at hsel hsa hres hlen hspp hflag
    have ho := append_delayed_reserved E p m pol sa m1 auth hsel hsa hres
    have ho2 : append_op Mode.delayed E p m (some pol) = _ := ho
    rw [ho2]
    refine ⟨rfl, rfl, rfl, rfl, ?_, ?_, ?_, ?_, ?_, ?_,
      by simp only [tlv_header_size]; omega, rfl⟩
    · rw [load_u16_congr _ _ (store_u16 E.host_big_endian m1.mem auth E.TLV_AUTHENTICATION)]
      · exact load_store_u16 _ _ _ _ htype
      · intro i h0 h1
        show memcpy _ _ _ _ i = _
        rw [memcpy_of_out _ _ _ _ _ (by omega),
          store_u32_of_out _ _ _ _ _ (by omega), store_u8_of_ne _ _ _ _ (by omega),
          store_u8_of_ne _ _ _ _ (by omega), store_u16_of_out _ _ _ _ _ (by omega)]
    · rw [load_u16_congr _ _ (store_u16 E.host_big_endian
        (store_u16 E.host_big_endian m1.mem auth E.TLV_AUTHENTICATION) (auth + 2)
        (38 + sa.hash_len))]
      · exact load_store_u16 _ _ _ _ (by omega)
      · intro i h0 h1
        show memcpy _ _ _ _ i = _
        rw [memcpy_of_out _ _ _ _ _ (by omega),
          store_u32_of_out _ _ _ _ _ (by omega), store_u8_of_ne _ _ _ _ (by omega),
          store_u8_of_ne _ _ _ _ (by omega)]
    · show memcpy _ _ _ _ (auth + 4) % 256 = _
      rw [memcpy_of_out _ _ _ _ _ (by omega),
        store_u32_of_out _ _ _ _ _ (by omega), store_u8_of_ne _ _ _ _ (by omega)]
      exact load_store_u8 _ _ _ hspp
    · show memcpy _ _ _ _ (auth + 5) % 256 = _
      rw [memcpy_of_out _ _ _ _ _ (by omega), store_u32_of_out _ _ _ _ _ (by omega)]
      exact load_store_u8 _ _ _ hflag
    · rw [load_u32_congr _ _ (store_u32 E.host_big_endian
        (store_u8
          (store_u8
            (store_u16 E.host_big_endian
              (store_u16 E.host_big_endian m1.mem auth E.TLV_AUTHENTICATION)
              (auth + 2) (38 + sa.hash_len))
            (auth + 4) pol.spp_delayed)
          (auth + 5) (E.SEC_PARAM_INDICATOR E.PRESENT E.PRESENT E.PRESENT))
        (auth + 6) sa.key_id)]
      · exact load_store_u32 _ _ _ _ hkid
      · intro i h0 h1
        show memcpy _ _ _ _ i = _
        rw [memcpy_of_out _ _ _ _ _ (by omega)]
    · intro _ i hi
      show memcpy _ _ _ _ (auth + 10 + (i : Int)) = _
      unfold memcpy
      rw [if_pos (by omega)]
      have hidx : (auth + 10 + (i : Int) - (auth + 10)).toNat = i := by omega
      rw [hidx]
      by_cases hlt : i < sa.key.length
      · rw [List.getD_eq_getElem _ _ hlt]
        exact Nat.mod_eq_of_lt (hkey _ (List.getElem_mem hlt))
      · rw [List.getD_eq_default _ _ (by omega)]

/-- Witness of C13 on the reference instance, in delayed mode: the reference
`msg_tlv_append` reserves the 44 bytes of the TLV of `sa0` at offset 50 of `m0`. -/
theorem append_writes_authentication_tlv_witness :
    selector Mode.delayed pol0 ≠ E0.SPP_NO_SECURITY ∧
    query_security_association (selector Mode.delayed pol0) p0.sad = some sa0 ∧
    E0.msg_tlv_append m0 (tlv_header_size Mode.delayed + sa0.hash_len) =
      some (m0_reserved, 50) ∧
    E0.TLV_AUTHENTICATION < 65536 ∧
    tlv_header_size Mode.delayed - 4 + sa0.hash_len < 65536 ∧
    selector Mode.delayed pol0 < 256 ∧
    E0.SEC_PARAM_INDICATOR (indicator_flag Mode.delayed E0) (indicator_flag Mode.delayed E0)
      (indicator_flag Mode.delayed E0) < 256 ∧
    sa0.key_id < 4294967296 ∧
    (∀ b ∈ sa0.key, b < 256) ∧
    load_u16 E0.host_big_endian (append_op Mode.delayed E0 p0 m0 (some pol0)).m.mem 50 =
      E0.TLV_AUTHENTICATION ∧
    load_u16 E0.host_big_endian (append_op Mode.delayed E0 p0 m0 (some pol0)).m.mem (50 + 2) =
      tlv_header_size Mode.delayed - 4 + sa0.hash_len :=
  have h := append_writes_authentication_tlv E0 Mode.delayed p0 m0 pol0 sa0 m0_reserved 50
    (by decide) (by decide) rfl (by decide) (by decide) (by decide) (by decide)
    (by decide) (by decide)
  ⟨by decide, by decide, rfl, by decide, by decide, by decide, by decide, by decide,
    by decide, h.2.2.2.2.1, h.2.2.2.2.2.1⟩

/-! ## Append, then protect -/

/-- An append operation leaves the port as it is. -/
theorem append_op_port (md : Mode) (E : Externals) (p : port) (m : ptp_message)
    (policy : Option security_policy) : (append_op md E p m policy).p = p := by
  cases md <;> rcases policy with _ | pol
  · rfl
  · simp only [append_op, authentication_append_immediate]
    split
    · rfl
    · split
      · rfl
      · split <;> rfl
  · rfl
  · simp only [append_op, authentication_append_delayed]
    split
    · rfl
    · split
      · rfl
      · split <;> rfl

/-- Where protect writes after append: for every message of declared length `L` and
resolved SA of hash length `H`, if `msg_tlv_append` reserves the TLV at offset `L` and
the message after the append operation declares `L` plus the reserved byte count, the
protect operation of the mode has the ICV written into the `H` bytes that start at `L`
plus the header size of the TLV minus the layout offset of the mode: at `L + 10`, the
ICV field, in immediate mode, and at `L`, the first byte of the TLV, in delayed mode.
With a MAC primitive that meets its contract every byte outside that range keeps the
value the append operation left. -/
theorem append_then_protect_icv_region (E : Externals)
    (mac : security_association → List Nat → List Nat) (md : Mode) (p : port)
    (m : ptp_message) (pol : security_policy) (sa : security_association)
    (m1 : ptp_message) (L : Nat)
    (hmac : append_icv_contract E mac)
    (hsel : selector md pol ≠ E.SPP_NO_SECURITY)
    (hsa : query_security_association (selector md pol) p.sad = some sa)
    (_hres : E.msg_tlv_append m (tlv_header_size md + sa.hash_len) = some (m1, (L : Int)))
    (hlen : messageLength_be E (append_op md E p m (some pol)).m =
      L + tlv_header_size md + sa.hash_len) :
    ∃ (o : Outcome) (start : Int),
      start = (L : Int) + (tlv_header_size md : Int) - layout_offset md ∧
      protect_op md E (append_op md E p m (some pol)).p (append_op md E p m (some pol)).m
        (some pol) = some o ∧
      icv_regions o.trace = [(start, start + (sa.hash_len : Int))] ∧
      (∀ i : Int, ¬ (start ≤ i ∧ i < start + (sa.hash_len : Int)) →
        o.m.mem i = (append_op md E p m (some pol)).m.mem i) := by
  have hsa2 : query_security_association (selector md pol)
      (append_op md E p m (some pol)).p.sad = some sa := by
    rw [append_op_port]
    exact hsa
  have hp := protect_op_resolved E md (append_op md E p m (some pol)).p
    (append_op md E p m (some pol)).m pol sa hsel hsa2
  have hspan : span_len md E (append_op md E p m (some pol)).m sa =
      (L : Int) + (tlv_header_size md : Int) - layout_offset md := by
    have hlt := messageLength_be_lt E (append_op md E p m (some pol)).m
    have hoff := layout_offset_range md
    rw [hlen] at hlt
    have hx : ((L + tlv_header_size md + sa.hash_len : Nat) : Int) - (sa.hash_len : Int) -
        layout_offset md = (L : Int) + (tlv_header_size md : Int) - layout_offset md := by
      push_cast
      ring
    unfold span_len
    rw [hlen, hx]
    exact wrap_int32_of_range _ (by omega) (by omega)
  rw [hspan] at hp
  refine ⟨_, _, rfl, hp, rfl, ?_⟩
  intro i hi
  show E.append_icv sa _ _ 0 _ i = _
  rw [hmac, if_neg hi]

/-- C14, counterexample: in delayed mode, with no further bytes after the TLV, protect
does not write into the ICV field of the TLV that append has reserved.  On the
reference instance,
`authentication_append_delayed` reserves the 44 bytes `[50, 94)` of the message `m0`
for `sa0` (header `[50, 92)`, ICV field `[92, 94)`), writes type =
`TLV_AUTHENTICATION` at offset 50 and leaves a message that declares 94 bytes;
`protect_message_delayed` then writes the ICV into `[50, 52)`: the type field reads
27499 instead of 32777, and the ICV field keeps its bytes 0. -/
theorem delayed_protect_overwrites_tlv_header :
    (authentication_append_delayed E0 p0 m0 (some pol0)).ret = 0 ∧
    (authentication_append_delayed E0 p0 m0 (some pol0)).m.tlv_list = [(50, 44)] ∧
    messageLength_be E0 m0 = 50 ∧ sa0.hash_len = 2 ∧
    messageLength_be E0 (authentication_append_delayed E0 p0 m0 (some pol0)).m = 94 ∧
    load_u16 E0.host_big_endian
      (authentication_append_delayed E0 p0 m0 (some pol0)).m.mem 50 = 32777 ∧
    E0.TLV_AUTHENTICATION = 32777 ∧
    (protect_message_delayed E0 (authentication_append_delayed E0 p0 m0 (some pol0)).p
      (authentication_append_delayed E0 p0 m0 (some pol0)).m (some pol0)).map
      (fun o => (o.ret, icv_regions o.trace,
        load_u16 E0.host_big_endian o.m.mem 50, o.m.mem 92, o.m.mem 93))
      = some (0, [(50, 52)], 27499, 0, 0) :=
  ⟨by decide, by decide, by decide, by decide, by decide, by decide, by decide, by decide⟩

/-- Witness of the placement after append on the reference instance, in immediate
mode: the TLV of `sa0` is reserved at offset 50 of `m0` and the ICV goes to
`[60, 62)`. -/
theorem append_then_protect_icv_region_witness :
    messageLength_be E0 (append_op Mode.immediate E0 p0 m0 (some pol0)).m =
      50 + tlv_header_size Mode.immediate + sa0.hash_len ∧
    ∃ (o : Outcome) (start : Int),
      start = ((50 : Nat) : Int) + (tlv_header_size Mode.immediate : Int) -
        layout_offset Mode.immediate ∧
      protect_op Mode.immediate E0 (append_op Mode.immediate E0 p0 m0 (some pol0)).p
        (append_op Mode.immediate E0 p0 m0 (some pol0)).m (some pol0) = some o ∧
      icv_regions o.trace = [(start, start + (sa0.hash_len : Int))] ∧
      (∀ i : Int, ¬ (start ≤ i ∧ i < start + (sa0.hash_len : Int)) →
        o.m.mem i = (append_op Mode.immediate E0 p0 m0 (some pol0)).m.mem i) :=
  ⟨by decide,
    append_then_protect_icv_region E0 mac0 Mode.immediate p0 m0 pol0 sa0
      { mem := Function.update (Function.update m0.mem 2 0) 3 62, tlv_list := [(50, 12)] }
      50 E0_append_icv_contract (by decide) (by decide) rfl (by decide)⟩

/-! ## Append, then protect: the ICV field -/

/-- C14, amended: append-then-protect composition, for both modes.  For every message
of declared length `L` and resolved SA of hash length `H`, if the append operation
reserves its TLV at offset `L` and the message handed to the matching protect
operation carries the TLV header as append wrote it and declares `L` plus the reserved
byte count plus the layout offset of the mode (nothing after the TLV in immediate mode,
42 bytes after the TLV in delayed mode), the ICV bytes written by protect occupy
exactly the ICV field of that TLV, the last `H` bytes of the reserved region, after the
10-byte immediate header or the 42-byte delayed header, and every byte of the TLV
header written by append has the same value after protect as before it; the MAC
primitive meeting its contract. -/
theorem append_then_protect_fills_icv_field (E : Externals)
    (mac : security_association → List Nat → List Nat) (md : Mode) (p : port)
    (m : ptp_message) (pol : security_policy) (sa : security_association)
    (m1 m2 : ptp_message) (L : Nat)
    (hmac : append_icv_contract E mac)
    (hsel : selector md pol ≠ E.SPP_NO_SECURITY)
    (hsa : query_security_association (selector md pol) p.sad = some sa)
    (_hres : E.msg_tlv_append m (tlv_header_size md + sa.hash_len) = some (m1, (L : Int)))
    (hsame : ∀ i : Int, (L : Int) ≤ i → i < (L : Int) + (tlv_header_size md : Int) →
      m2.mem i = (append_op md E p m (some pol)).m.mem i)
    (hlen : (messageLength_be E m2 : Int) =
      (L : Int) + (tlv_header_size md : Int) + (sa.hash_len : Int) + layout_offset md) :
    ∃ o, protect_op md E p m2 (some pol) = some o ∧
      o.ret = 0 ∧
      icv_regions o.trace =
        [((L : Int) + (tlv_header_size md : Int),
          (L : Int) + (tlv_header_size md : Int) + (sa.hash_len : Int))] ∧
      (∀ i : Int, (L : Int) ≤ i → i < (L : Int) + (tlv_header_size md : Int) →
        o.m.mem i = (append_op md E p m (some pol)).m.mem i) ∧
      (∀ i : Int, ¬ ((L : Int) + (tlv_header_size md : Int) ≤ i ∧
          i < (L : Int) + (tlv_header_size md : Int) + (sa.hash_len : Int)) →
        o.m.mem i = m2.mem i) := by
  have hp := protect_op_resolved E md p m2 pol sa hsel hsa
  have hspan : span_len md E m2 sa = (L : Int) + (tlv_header_size md : Int) := by
    have hlt := messageLength_be_lt E m2
    have hoff := layout_offset_range md
    have hx : (L : Int) + (tlv_header_size md : Int) + (sa.hash_len : Int) +
        layout_offset md - (sa.hash_len : Int) - layout_offset md =
        (L : Int) + (tlv_header_size md : Int) := by ring
    unfold span_len
    rw [hlen, hx]
    exact wrap_int32_of_range _ (by omega) (by omega)
  rw [hspan] at hp
  refine ⟨_, hp, rfl, rfl, ?_, ?_⟩
  · intro i h0 h1
    show E.append_icv sa m2.mem _ 0 _ i = _
    rw [hmac, if_neg (by omega)]
    exact hsame i h0 h1
  · intro i hi
    show E.append_icv sa m2.mem _ 0 _ i = _
    rw [hmac, if_neg hi]

/-- Witness of the amended C14 on the reference instance, in delayed mode: the message
`m0_delayed_trailing` carries the TLV that `authentication_append_delayed` wrote at
`[50, 94)` and declares 136 bytes; the ICV goes to `[92, 94)`. -/
theorem append_then_protect_fills_icv_field_witness :
    append_icv_contract E0 mac0 ∧
    selector Mode.delayed pol0 ≠ E0.SPP_NO_SECURITY ∧
    query_security_association (selector Mode.delayed pol0) p0.sad = some sa0 ∧
    E0.msg_tlv_append m0 (tlv_header_size Mode.delayed + sa0.hash_len) =
      some (m0_reserved, ((50 : Nat) : Int)) ∧
    (messageLength_be E0 m0_delayed_trailing : Int) =
      ((50 : Nat) : Int) + (tlv_header_size Mode.delayed : Int) + (sa0.hash_len : Int) +
        layout_offset Mode.delayed ∧
    ∃ o, protect_op Mode.delayed E0 p0 m0_delayed_trailing (some pol0) = some o ∧
      o.ret = 0 ∧
      icv_regions o.trace =
        [(((50 : Nat) : Int) + (tlv_header_size Mode.delayed : Int),
          ((50 : Nat) : Int) + (tlv_header_size Mode.delayed : Int) + (sa0.hash_len : Int))] ∧
      (∀ i : Int, ((50 : Nat) : Int) ≤ i →
        i < ((50 : Nat) : Int) + (tlv_header_size Mode.delayed : Int) →
        o.m.mem i = (append_op Mode.delayed E0 p0 m0 (some pol0)).m.mem i) ∧
      (∀ i : Int, ¬ (((50 : Nat) : Int) + (tlv_header_size Mode.delayed : Int) ≤ i ∧
          i < ((50 : Nat) : Int) + (tlv_header_size Mode.delayed : Int) +
            (sa0.hash_len : Int)) →
        o.m.mem i = m0_delayed_trailing.mem i) :=
  ⟨E0_append_icv_contract, by decide, by decide, rfl, by decide,
    append_then_protect_fills_icv_field E0 mac0 Mode.delayed p0 m0 pol0 sa0 m0_reserved
      m0_delayed_trailing 50 E0_append_icv_contract (by decide) (by decide) rfl
      (fun i h0 _ => Function.update_noteq
        (by simp only [tlv_header_size] at *; omega) _ _)
      (by decide)⟩

/-! ## Result values -/

/-- Outcome of a verify operation whose SA lookup fails. -/
theorem verify_op_missing (E : Externals) (md : Mode) (p : port) (m : ptp_message)
    (pol : security_policy)
    (hsel : selector md pol ≠ E.SPP_NO_SECURITY)
    (hsa : query_security_association (selector md pol) p.sad = none) :
    verify_op md E p m (some pol) =
      some ⟨-1, p, m, [Event.query_security_association (selector md pol)]⟩ := by
  cases md <;>
    simp only [selector] at hsel hsa <;>
    simp [verify_op, verify_icv, verify_delayed_icv, selector, hsel, hsa]

/-- C15, counterexample: the failed lookup and the rejection return the same value.
On the reference instance `verify_icv` returns -1 for the policy `pol_missing`, whose
profile id has no SA, and returns -1 for the policy `pol0` on the message `m0`, whose
ICV is invalid. -/
theorem lookup_failure_and_rejection_return_same_value :
    pol_missing.spp_immediate ≠ E0.SPP_NO_SECURITY ∧
    query_security_association pol_missing.spp_immediate p0.sad = none ∧
    (verify_icv E0 p0 m0 (some pol_missing)).map (fun o => o.ret) = some (-1) ∧
    pol0.spp_immediate ≠ E0.SPP_NO_SECURITY ∧
    query_security_association pol0.spp_immediate p0.sad = some sa0 ∧
    (verify_icv E0 p0 m0 (some pol0)).map (fun o => (o.ret, o.trace.getLast?)) =
      some (-1, some (Event.pr_err_wrong_icv 1)) :=
  ⟨by decide, by decide, by decide, by decide, by decide, by decide⟩

/-- C15, amended: for `verify_icv` and `verify_delayed_icv`, a call ending in a failed
SA lookup and a call ending in a rejection (ICV invalid, or sequence number invalid)
return the same value, -1; what tells them apart is the rest of the outcome: the
failed lookup leaves the counters as they were and calls no MAC primitive, the
rejection increments `invalidPA` by 1 and has called the MAC primitive. -/
theorem lookup_failure_differs_from_rejection_in_stats_only (E : Externals) (md : Mode)
    (p1 p2 : port) (m1 m2 : ptp_message) (pol1 pol2 : security_policy)
    (sa2 : security_association)
    (hsel1 : selector md pol1 ≠ E.SPP_NO_SECURITY)
    (hsa1 : query_security_association (selector md pol1) p1.sad = none)
    (hsel2 : selector md pol2 ≠ E.SPP_NO_SECURITY)
    (hsa2 : query_security_association (selector md pol2) p2.sad = some sa2)
    (hrej : ¬ (E.check_icv sa2 m2.mem (span_len md E m2 sa2) 0 (span_len md E m2 sa2) = 0 ∧
      (E.check_seqnum sa2 m2 p2).1 = 0)) :
    ∃ o1 o2, verify_op md E p1 m1 (some pol1) = some o1 ∧
      verify_op md E p2 m2 (some pol2) = some o2 ∧
      o1.ret = -1 ∧ o2.ret = -1 ∧ o1.ret = o2.ret ∧
      o1.p.stats = p1.stats ∧
      o2.p.stats.invalidPA = counter_succ p2.stats.invalidPA ∧
      o2.p.stats.validPA = p2.stats.validPA ∧
      o1.trace.any is_mac_call = false ∧
      o2.trace.any is_mac_call = true := by
  have h1 := verify_op_missing E md p1 m1 pol1 hsel1 hsa1
  by_cases hi : E.check_icv sa2 m2.mem (span_len md E m2 sa2) 0 (span_len md E m2 sa2) = 0
  · have hs : (E.check_seqnum sa2 m2 p2).1 ≠ 0 := fun h => hrej ⟨hi, h⟩
    have h2 := verify_op_seqnum_invalid E md p2 m2 pol2 sa2 hsel2 hsa2 hi hs
    exact ⟨_, _, h1, h2, rfl, rfl, rfl, rfl, rfl, rfl, by simp [is_mac_call],
      by simp [is_mac_call]⟩
  · have h2 := verify_op_icv_invalid E md p2 m2 pol2 sa2 hsel2 hsa2 hi
    exact ⟨_, _, h1, h2, rfl, rfl, rfl, rfl, rfl, rfl, by simp [is_mac_call],
      by simp [is_mac_call]⟩

/-- Witness of the amended C15 on the reference instance: `pol_missing` against `pol0`
on the message `m0`, in immediate mode. -/
theorem lookup_failure_differs_from_rejection_in_stats_only_witness :
    selector Mode.immediate pol_missing ≠ E0.SPP_NO_SECURITY ∧
    query_security_association (selector Mode.immediate pol_missing) p0.sad = none ∧
    selector Mode.immediate pol0 ≠ E0.SPP_NO_SECURITY ∧
    query_security_association (selector Mode.immediate pol0) p0.sad = some sa0 ∧
    ¬ (E0.check_icv sa0 m0.mem (span_len Mode.immediate E0 m0 sa0) 0
        (span_len Mode.immediate E0 m0 sa0) = 0 ∧
      (E0.check_seqnum sa0 m0 p0).1 = 0) ∧
    ∃ o1 o2, verify_op Mode.immediate E0 p0 m0 (some pol_missing) = some o1 ∧
      verify_op Mode.immediate E0 p0 m0 (some pol0) = some o2 ∧
      o1.ret = -1 ∧ o2.ret = -1 ∧ o1.ret = o2.ret ∧
      o1.p.stats = p0.stats ∧
      o2.p.stats.invalidPA = counter_succ p0.stats.invalidPA ∧
      o2.p.stats.validPA = p0.stats.validPA ∧
      o1.trace.any is_mac_call = false ∧
      o2.trace.any is_mac_call = true :=
  ⟨by decide, by decide, by decide, by decide, by decide,
    lookup_failure_differs_from_rejection_in_stats_only E0 Mode.immediate p0 p0 m0 m0
      pol_missing pol0 sa0 (by decide) (by decide) (by decide) (by decide) (by decide)⟩

/-! ## The TLV at the verifier -/

/-- C16, counterexample: a message with a malformed TLV length is accepted.  The
message `m_badlen` declares 62 bytes and carries at offset 50 an Authentication TLV
whose length field is 9, not `6 + H = 8`; its ICV is valid for `sa0` and its sequence
number advances; `verify_icv` returns 0 and increments `validPA`. -/
theorem malformed_tlv_length_accepted :
    messageLength_be E0 m_badlen = 62 ∧ sa0.hash_len = 2 ∧
    tlv_type_field E0 m_badlen 50 = E0.TLV_AUTHENTICATION ∧
    tlv_length_field E0 m_badlen 50 = 9 ∧
    tlv_length_field E0 m_badlen 50 ≠ 6 + sa0.hash_len ∧
    (verify_icv E0 p0 m_badlen (some pol0)).map
      (fun o => (o.ret, o.p.stats, mac_calls o.trace))
      = some (0, { validPA := 1, invalidPA := 0 }, [(60, 0, 60)]) :=
  ⟨by decide, by decide, by decide, by decide, by decide, by decide⟩

/-- C16, amended: `verify_icv` does not examine the Authentication TLV.  For every
received message, wherever its TLV lies and whatever its length field holds, also a
value other than `6 + H`, `verify_icv` returns 0 and increments `validPA` by 1 as soon
as the MAC check and the Replay Guard report valid; a malformed length is rejected
only when one of the two checks fails. -/
theorem verify_icv_ignores_tlv_length (E : Externals) (p : port) (m : ptp_message)
    (pol : security_policy) (sa : security_association) (tlv : Int)
    (hsel : pol.spp_immediate ≠ E.SPP_NO_SECURITY)
    (hsa : query_security_association pol.spp_immediate p.sad = some sa)
    (_hbad : tlv_length_field E m tlv ≠ 6 + sa.hash_len)
    (hicv : E.check_icv sa m.mem (span_len Mode.immediate E m sa) 0
      (span_len Mode.immediate E m sa) = 0)
    (hseq : (E.check_seqnum sa m p).1 = 0) :
    ∃ o, verify_icv E p m (some pol) = some o ∧
      o.ret = 0 ∧
      o.p.stats.validPA = counter_succ p.stats.validPA ∧
      o.p.stats.invalidPA = p.stats.invalidPA ∧
      o.m = m :=
  ⟨_, verify_op_accept E Mode.immediate p m pol sa hsel hsa hicv hseq, rfl, rfl, rfl, rfl⟩

/-- Witness of the amended C16 on the reference instance: the message `m_badlen`. -/
theorem verify_icv_ignores_tlv_length_witness :
    pol0.spp_immediate ≠ E0.SPP_NO_SECURITY ∧
    query_security_association pol0.spp_immediate p0.sad = some sa0 ∧
    tlv_length_field E0 m_badlen 50 ≠ 6 + sa0.hash_len ∧
    E0.check_icv sa0 m_badlen.mem (span_len Mode.immediate E0 m_badlen sa0) 0
      (span_len Mode.immediate E0 m_badlen sa0) = 0 ∧
    (E0.check_seqnum sa0 m_badlen p0).1 = 0 ∧
    ∃ o, verify_icv E0 p0 m_badlen (some pol0) = some o ∧
      o.ret = 0 ∧
      o.p.stats.validPA = counter_succ p0.stats.validPA ∧
      o.p.stats.invalidPA = p0.stats.invalidPA ∧
      o.m = m_badlen :=
  ⟨by decide, by decide, by decide, by decide, by decide,
    verify_icv_ignores_tlv_length E0 p0 m_badlen pol0 sa0 50 (by decide) (by decide)
      (by decide) (by decide) (by decide)⟩

/-! ## Span bounds -/

/-- C17: for every message of declared length `L` (a 16-bit value) and resolved SA of
hash length `H`, the signed span length computed by `protect_message` and `verify_icv`
is non-negative if and only if `L >= H`, and the one computed by
`protect_message_delayed` and `verify_delayed_icv` if and only if `L >= H + 42`; when it
is non-negative the hashed span `[0, len)` and the ICV region `[len, len + H)` are
adjacent, disjoint and both inside the first `L` bytes.  No operation tests the bound:
the MAC primitive is called in every case, and for a declared length below the bound
it is called with a negative length and an ICV offset before the start of the
message.  The hash length is at most `2 ^ 31 - 42`, so that the subtraction stays
inside the range of the `int len` of the source. -/
theorem span_bounds (E : Externals) (md : Mode) (p : port)
    (m : ptp_message) (pol : security_policy) (sa : security_association) (L : Nat)
    (hL : messageLength_be E m = L)
    (hH : sa.hash_len ≤ 2147483606)
    (hsel : selector md pol ≠ E.SPP_NO_SECURITY)
    (hsa : query_security_association (selector md pol) p.sad = some sa) :
    L ≤ 65535 ∧
    ∃ (len : Int) (o_protect o_verify : Outcome),
      protect_op md E p m (some pol) = some o_protect ∧
      verify_op md E p m (some pol) = some o_verify ∧
      mac_calls o_protect.trace = [(len, 0, len)] ∧
      mac_calls o_verify.trace = [(len, 0, len)] ∧
      (0 ≤ len ↔ match md with
        | Mode.immediate => sa.hash_len ≤ L
        | Mode.delayed => sa.hash_len + 42 ≤ L) ∧
      (0 ≤ len →
        Disjoint (Set.Ico (0 : Int) len) (Set.Ico len (len + (sa.hash_len : Int))) ∧
        Set.Ico (0 : Int) len ⊆ Set.Ico (0 : Int) (L : Int) ∧
        Set.Ico len (len + (sa.hash_len : Int)) ⊆ Set.Ico (0 : Int) (L : Int)) ∧
      (len < 0 → ∃ icv n : Int,
        mac_calls o_protect.trace = [(icv, 0, n)] ∧
        mac_calls o_verify.trace = [(icv, 0, n)] ∧ n < 0 ∧ icv < 0) := by
  have hlt := messageLength_be_lt E m
  rw [hL] at hlt
  refine ⟨by omega, ?_⟩
  obtain ⟨ov, hv, hvm, _⟩ := verify_op_resolved E md p m pol sa hsel hsa
  have hp := protect_op_resolved E md p m pol sa hsel hsa
  have hlen : span_len md E m sa = (L : Int) - (sa.hash_len : Int) - layout_offset md := by
    rw [span_len_of_bound md E m sa hH, hL]
  refine ⟨span_len md E m sa, _, ov, hp, hv, rfl, hvm, ?_, ?_, ?_⟩
  · rw [hlen]
    cases md <;> simp only [layout_offset] <;> omega
  · intro h0
    rw [hlen] at h0 ⊢
    have hoff := (layout_offset_range md).1
    refine ⟨?_, ?_, ?_⟩
    · rw [Set.disjoint_left]
      intro x hx hx2
      simp only [Set.mem_Ico] at hx hx2
      omega
    · intro x hx
      simp only [Set.mem_Ico] at hx ⊢
      omega
    · intro x hx
      simp only [Set.mem_Ico] at hx ⊢
      omega
  · intro hneg
    exact ⟨_, _, rfl, hvm, hneg, hneg⟩

/-- Witness of C17 on the reference instance: `m_short` declares 5 bytes, below the
bound `2 + 42` of delayed mode for `sa0`. -/
theorem span_bounds_witness :
    messageLength_be E0 m_short = 5 ∧
    sa0.hash_len ≤ 2147483606 ∧
    selector Mode.delayed pol0 ≠ E0.SPP_NO_SECURITY ∧
    query_security_association (selector Mode.delayed pol0) p0.sad = some sa0 ∧
    (verify_op Mode.delayed E0 p0 m_short (some pol0)).map (fun o => mac_calls o.trace) =
      some [(-39, 0, -39)] ∧
    (5 ≤ 65535 ∧
    ∃ (len : Int) (o_protect o_verify : Outcome),
      protect_op Mode.delayed E0 p0 m_short (some pol0) = some o_protect ∧
      verify_op Mode.delayed E0 p0 m_short (some pol0) = some o_verify ∧
      mac_calls o_protect.trace = [(len, 0, len)] ∧
      mac_calls o_verify.trace = [(len, 0, len)] ∧
      (0 ≤ len ↔ match Mode.delayed with
        | Mode.immediate => sa0.hash_len ≤ 5
        | Mode.delayed => sa0.hash_len + 42 ≤ 5) ∧
      (0 ≤ len →
        Disjoint (Set.Ico (0 : Int) len) (Set.Ico len (len + (sa0.hash_len : Int))) ∧
        Set.Ico (0 : Int) len ⊆ Set.Ico (0 : Int) ((5 : Nat) : Int) ∧
        Set.Ico len (len + (sa0.hash_len : Int)) ⊆ Set.Ico (0 : Int) ((5 : Nat) : Int)) ∧
      (len < 0 → ∃ icv n : Int,
        mac_calls o_protect.trace = [(icv, 0, n)] ∧
        mac_calls o_verify.trace = [(icv, 0, n)] ∧ n < 0 ∧ icv < 0)) :=
  ⟨by decide, by decide, by decide, by decide, by decide,
    span_bounds E0 Mode.delayed p0 m_short pol0 sa0 5 (by decide) (by decide) (by decide)
      (by decide)⟩

/-! ## Frame -/

/-- A protect operation leaves the port as it is. -/
theorem protect_op_port (md : Mode) (E : Externals) (p : port) (m : ptp_message)
    (policy : Option security_policy) (o : Outcome)
    (ho : protect_op md E p m policy = some o) : o.p = p := by
  cases md <;> rcases policy with _ | pl
  · simp [protect_op, protect_message] at ho
  · simp only [protect_op, protect_message] at ho
    split at ho
    · cases ho; rfl
    · split at ho <;> cases ho <;> rfl
  · simp [protect_op, protect_message_delayed] at ho
  · simp only [protect_op, protect_message_delayed] at ho
    split at ho
    · cases ho; rfl
    · split at ho <;> cases ho <;> rfl

/-- A verify operation leaves the message as it is. -/
theorem verify_op_message (md : Mode) (E : Externals) (p : port) (m : ptp_message)
    (policy : Option security_policy) (o : Outcome)
    (ho : verify_op md E p m policy = some o) : o.m = m := by
  cases md <;> rcases policy with _ | pl
  · simp [verify_op, verify_icv] at ho
  · simp only [verify_op, verify_icv] at ho
    split at ho
    · cases ho; rfl
    · split at ho
      · cases ho; rfl
      · split at ho
        · cases ho; rfl
        · split at ho <;> cases ho <;> rfl
  · simp [verify_op, verify_delayed_icv] at ho
  · simp only [verify_op, verify_delayed_icv] at ho
    split at ho
    · cases ho; rfl
    · split at ho
      · cases ho; rfl
      · split at ho
        · cases ho; rfl
        · split at ho <;> cases ho <;> rfl

/-- An append operation writes below the end of the header of the TLV only: the bytes
from the ICV field on are those `msg_tlv_append` left. -/
theorem append_op_icv_field (md : Mode) (E : Externals) (p : port) (m : ptp_message)
    (pol : security_policy) (sa : security_association) (m1 : ptp_message) (auth : Int)
    (hsel : selector md pol ≠ E.SPP_NO_SECURITY)
    (hsa : query_security_association (selector md pol) p.sad = some sa)
    (hres : E.msg_tlv_append m (tlv_header_size md + sa.hash_len) = some (m1, auth))
    (i : Int) (hi : auth + (tlv_header_size md : Int) ≤ i) :
    (append_op md E p m (some pol)).m.mem i = m1.mem i := by
  cases md
  · simp only [selector, tlv_header_size] at hsel hsa hres hi
    have ho : append_op Mode.immediate E p m (some pol) = _ :=
      append_immediate_reserved E p m pol sa m1 auth hsel hsa hres
    rw [ho]
    show store_u32 _ _ _ _ i = _
    rw [store_u32_of_out _ _ _ _ _ (by omega), store_u8_of_ne _ _ _ _ (by omega),
      store_u8_of_ne _ _ _ _ (by omega), store_u16_of_out _ _ _ _ _ (by omega),
      store_u16_of_out _ _ _ _ _ (by omega)]
  · simp only [selector, tlv_header_size] at hsel hsa hres hi
    have ho : append_op Mode.delayed E p m (some pol) = _ :=
      append_delayed_reserved E p m pol sa m1 auth hsel hsa hres
    rw [ho]
    show memcpy _ _ _ _ i = _
    rw [memcpy_of_out _ _ _ _ _ (by omega),
      store_u32_of_out _ _ _ _ _ (by omega), store_u8_of_ne _ _ _ _ (by omega),
      store_u8_of_ne _ _ _ _ (by omega), store_u16_of_out _ _ _ _ _ (by omega),
      store_u16_of_out _ _ _ _ _ (by omega)]

/-- C18: frame of the operations.  For every message and resolved SA with
`0 <= len`, `protect_message` and `protect_message_delayed` change no byte of the
message outside the `H`-byte ICV region `[len, len + H)`, in particular no byte of the
hashed span, and leave the port with `validPA` and `invalidPA` unchanged, the MAC
primitive meeting its contract; `verify_icv` and `verify_delayed_icv` change no byte of
the message at all; `authentication_append_immediate` and
`authentication_append_delayed` leave the port with `validPA` and `invalidPA`
unchanged and write none of the `H` ICV bytes of the region they reserve. -/
theorem frame_of_operations (E : Externals)
    (mac : security_association → List Nat → List Nat) (md : Mode) (p : port)
    (m : ptp_message) (hmac : append_icv_contract E mac) :
    (∀ (pol : security_policy) (sa : security_association),
      selector md pol ≠ E.SPP_NO_SECURITY →
      query_security_association (selector md pol) p.sad = some sa →
      0 ≤ span_len md E m sa →
      ∃ o, protect_op md E p m (some pol) = some o ∧
        (∀ i : Int, ¬ (span_len md E m sa ≤ i ∧
            i < span_len md E m sa + (sa.hash_len : Int)) → o.m.mem i = m.mem i) ∧
        (∀ i : Int, 0 ≤ i → i < span_len md E m sa → o.m.mem i = m.mem i) ∧
        o.m.tlv_list = m.tlv_list) ∧
    (∀ (policy : Option security_policy) (o : Outcome),
      protect_op md E p m policy = some o → o.p = p ∧ o.p.stats = p.stats) ∧
    (∀ (policy : Option security_policy) (o : Outcome),
      verify_op md E p m policy = some o → o.m = m) ∧
    (∀ policy : Option security_policy,
      (append_op md E p m policy).p = p ∧ (append_op md E p m policy).p.stats = p.stats) ∧
    (∀ (pol : security_policy) (sa : security_association) (m1 : ptp_message) (auth : Int),
      selector md pol ≠ E.SPP_NO_SECURITY →
      query_security_association (selector md pol) p.sad = some sa →
      E.msg_tlv_append m (tlv_header_size md + sa.hash_len) = some (m1, auth) →
      ∀ i : Int, auth + (tlv_header_size md : Int) ≤ i →
        i < auth + (tlv_header_size md : Int) + (sa.hash_len : Int) →
        (append_op md E p m (some pol)).m.mem i = m1.mem i) := by
  refine ⟨?_, ?_, ?_, ?_, ?_⟩
  · intro pol sa hsel hsa _
    refine ⟨_, protect_op_resolved E md p m pol sa hsel hsa, ?_, ?_, rfl⟩
    · intro i hi
      show E.append_icv sa m.mem _ 0 _ i = _
      rw [hmac, if_neg hi]
    · intro i _ hi
      show E.append_icv sa m.mem _ 0 _ i = _
      rw [hmac, if_neg (by omega)]
  · intro policy o ho
    have h := protect_op_port md E p m policy o ho
    exact ⟨h, by rw [h]⟩
  · intro policy o ho
    exact verify_op_message md E p m policy o ho
  · intro policy
    have h := append_op_port md E p m policy
    exact ⟨h, by rw [h]⟩
  · intro pol sa m1 auth hsel hsa hres i hi _
    exact append_op_icv_field md E p m pol sa m1 auth hsel hsa hres i hi

/-- Witness of C18 on the reference instance, in immediate mode, on the message
`m0`: the contract of the MAC primitive holds, and the byte at offset 0, in the hashed
span, is the same after `protect_message`. -/
theorem frame_of_operations_witness :
    append_icv_contract E0 mac0 ∧
    (protect_op Mode.immediate E0 p0 m0 (some pol0)).map (fun o => o.m.mem 0) =
      some (m0.mem 0) ∧
    (∀ (policy : Option security_policy) (o : Outcome),
      verify_op Mode.immediate E0 p0 m0 policy = some o → o.m = m0) :=
  ⟨E0_append_icv_contract, by decide,
    (frame_of_operations E0 mac0 Mode.immediate p0 m0 E0_append_icv_contract).2.2.1⟩

/-! ## Idempotence of protection -/

/-- C19: for every resolved SA of hash length `H` whose MAC primitive is a function of
the SA and the span bytes (it meets its contract for a MAC function), and every
message whose span length, `L - H` (immediate) or `L - H - 42` (delayed), is at least
the size of the message header, the header containing the `messageLength` field, so
that the ICV region does not overlap the field, applying `protect_message` (resp.
`protect_message_delayed`) twice in succession yields exactly the message that
applying it once yields: the second run hashes a span the first run did not
modify. -/
theorem protect_twice_same_message (E : Externals)
    (mac : security_association → List Nat → List Nat) (md : Mode) (p : port)
    (m : ptp_message) (pol : security_policy) (sa : security_association)
    (header_size : Int)
    (hmac : append_icv_contract E mac)
    (hsel : selector md pol ≠ E.SPP_NO_SECURITY)
    (hsa : query_security_association (selector md pol) p.sad = some sa)
    (hfield : E.messageLength_off + 2 ≤ header_size)
    (hlen : header_size ≤ span_len md E m sa) :
    ∃ o1 o2, protect_op md E p m (some pol) = some o1 ∧
      protect_op md E o1.p o1.m (some pol) = some o2 ∧
      o1.ret = 0 ∧ o2.ret = 0 ∧
      o2.m = o1.m ∧ o2.p = p := by
  have hp1 := protect_op_resolved E md p m pol sa hsel hsa
  have hunch : ∀ i : Int, i < span_len md E m sa →
      E.append_icv sa m.mem (span_len md E m sa) 0 (span_len md E m sa) i = m.mem i := by
    intro i hi
    rw [hmac sa m.mem, if_neg (by omega)]
  have hlen2 : span_len md E
      { m with mem := (E.append_icv sa m.mem (span_len md E m sa) 0 (span_len md E m sa)) }
      sa = span_len md E m sa := by
    apply span_len_congr
    · exact hunch _ (by omega)
    · exact hunch _ (by omega)
  have hp2 := protect_op_resolved E md p
    { m with mem := (E.append_icv sa m.mem (span_len md E m sa) 0 (span_len md E m sa)) }
    pol sa hsel hsa
  rw [hlen2] at hp2
  refine ⟨_, _, hp1, hp2, rfl, rfl, ?_, rfl⟩
  show ({ mem := _, tlv_list := m.tlv_list } : ptp_message) =
    { mem := _, tlv_list := m.tlv_list }
  congr 1
  funext i
  rw [hmac sa (E.append_icv sa m.mem (span_len md E m sa) 0 (span_len md E m sa))]
  have hspan : hashed_span
      (E.append_icv sa m.mem (span_len md E m sa) 0 (span_len md E m sa)) 0
      (span_len md E m sa) = hashed_span m.mem 0 (span_len md E m sa) := by
    apply hashed_span_congr
    intro j _ hj
    exact hunch j (by omega)
  rw [hspan]
  by_cases hi : span_len md E m sa ≤ i ∧ i < span_len md E m sa + (sa.hash_len : Int)
  · rw [if_pos hi, hmac sa m.mem, if_pos hi]
  · rw [if_neg hi]

/-- Witness of C19 on the reference instance, in immediate mode, on the message `m0`
with the 34-byte header of a PTP message. -/
theorem protect_twice_same_message_witness :
    append_icv_contract E0 mac0 ∧
    selector Mode.immediate pol0 ≠ E0.SPP_NO_SECURITY ∧
    query_security_association (selector Mode.immediate pol0) p0.sad = some sa0 ∧
    E0.messageLength_off + 2 ≤ 34 ∧
    (34 : Int) ≤ span_len Mode.immediate E0 m0 sa0 ∧
    ∃ o1 o2, protect_op Mode.immediate E0 p0 m0 (some pol0) = some o1 ∧
      protect_op Mode.immediate E0 o1.p o1.m (some pol0) = some o2 ∧
      o1.ret = 0 ∧ o2.ret = 0 ∧
      o2.m = o1.m ∧ o2.p = p0 :=
  ⟨E0_append_icv_contract, by decide, by decide, by decide, by decide,
    protect_twice_same_message E0 mac0 Mode.immediate p0 m0 pol0 sa0 34
      E0_append_icv_contract (by decide) (by decide) (by decide) (by decide)⟩

/-! ## Mode non-interference -/

/-- C20: for every port, message and SA store, and every two non-null policies that
agree on the selector of a mode, the three operations of that mode (append, protect,
verify) have the same outcome for both policies: the same return value, the same
message, the same port with its statistics and the same collaborator calls, whatever
the selectors of the other mode are. -/
theorem mode_non_interference (E : Externals) (md : Mode) (p : port) (m : ptp_message)
    (pol1 pol2 : security_policy) (h : selector md pol1 = selector md pol2) :
    append_op md E p m (some pol1) = append_op md E p m (some pol2) ∧
    protect_op md E p m (some pol1) = protect_op md E p m (some pol2) ∧
    verify_op md E p m (some pol1) = verify_op md E p m (some pol2) := by
  cases md <;>
    simp only [selector] at h <;>
    simp [append_op, protect_op, verify_op, authentication_append_immediate,
      authentication_append_delayed, protect_message, protect_message_delayed, verify_icv,
      verify_delayed_icv, h]

/-- Witness of C20 on the reference instance: `pol0` and a policy with the same
immediate selector and no delayed security. -/
theorem mode_non_interference_witness :
    selector Mode.immediate pol0 =
      selector Mode.immediate { spp_immediate := 1, spp_delayed := 255 } ∧
    append_op Mode.immediate E0 p0 m0 (some pol0) =
      append_op Mode.immediate E0 p0 m0 (some { spp_immediate := 1, spp_delayed := 255 }) ∧
    protect_op Mode.immediate E0 p0 m0 (some pol0) =
      protect_op Mode.immediate E0 p0 m0 (some { spp_immediate := 1, spp_delayed := 255 }) ∧
    verify_op Mode.immediate E0 p0 m0 (some pol0) =
      verify_op Mode.immediate E0 p0 m0 (some { spp_immediate := 1, spp_delayed := 255 }) :=
  ⟨by decide,
    mode_non_interference E0 Mode.immediate p0 m0 pol0
      { spp_immediate := 1, spp_delayed := 255 } (by decide)⟩

end Auth
